import Mathlib

/-!
# go-theperfectgiftcard: a shallow embedding of `theperfectgiftcard.go`

The package logs in to a gift-card portal: `GetCard` encrypts the PIN with RSA
PKCS#1 v1.5, posts a form through a `colly` collector and fills a `Card` from the
HTML page by callbacks attached to CSS selectors.

What the package imports (colly and goquery, `crypto/rsa`, `math/big`, `strconv`,
`strings`, `fmt`, `encoding/hex`) is not part of the repository.  It is modelled here
by its documented behaviour, each such definition saying so; the network and the
remote site are a parameter of `GetCard`.  Go values captured by the closures of
`GetCard` (`card`, `response`, `err`) are passed explicitly as an `Env`; the
package-level map `body` is passed in and returned.
-/

namespace ThePerfectGiftCard

/-! ## Constants of the package -/

/-- Constant `baseURL`. -/
def baseURL : String := "https://giftcards.indue.com.au/theperfectgiftcard/"

/-- Constant `modulus`. -/
def modulus : String :=
  "D4229AD35AE3FE60E192948079DFEE523E018CE5931E6FF68A70C20A2A91D80FF09604DE9F4100C5B91A8433712428B35F3CC6C4CA814715BE470D811E73BE497788CA38494CADAF4825E78A508FAB023F65FC4722306FE7ECF1AC41C19AE5C4EFD3ACFE99EE08B60794EC19D57EA0E3556EE53F8DAECAB67DB47AFBC0F856AD"

/-- Constant `exp`. -/
def exp : String := "010001"

/-- Constant `randomNo`. -/
def randomNo : String := "7464663221746466322174646632217464663221"

/-! ## Go maps of strings -/

/-- A Go `map[string]string`: the value stored under each key, if any. -/
abbrev Form := String → Option String

/-- The empty map. -/
def Form.empty : Form := fun _ => none

/-- The assignment `m[k] = v`. -/
def Form.set (m : Form) (k v : String) : Form :=
  fun x => if x = k then some v else m x

/-- The package-level variable `body` as the package initialises it.  The value of
`cmdLogin` is the source literal: U+00C2, U+00A0, then `Log+in` and a blank. -/
def body : Form :=
  ((((Form.empty.set "__VIEWSTATE"
      "/wEPDwUJODY3MDYzNzgzD2QWAgIDD2QWBmYPFgIeB1Zpc2libGVoZAIDDw9kFgIeB29uY2xpY2sFFXJldHVybiBnZXRwYXNzd29yZCgpO2QCBg8WAh8AaGRkXcXstETbLhPK3PqD3TU7Io+Xaw4=").set
    "__VIEWSTATEGENERATOR" "5898F960").set
    "__EVENTVALIDATION"
      "/wEWBgKuoL7TCwLi0uqnCgK1qbSRCwKFoZPNAwLQvbH7BAL8yZzMCZCDAp2k+4wbYm+6XCicWxiA53iU").set
    "cmdLogin" "\xc2\xa0Log+in ").set
    "hdnrandomnumber" randomNo

/-! ## Errors -/

/-- The two sentinel errors of `strconv`. -/
inductive NumErrorKind where
  | ErrSyntax
  | ErrRange
  deriving DecidableEq, Repr

/-- Go `error` values that occur: `errors.New(text)` and `*strconv.NumError`. -/
inductive GoError where
  | errorString (text : String)
  | numError (Func : String) (Num : String) (Err : NumErrorKind)
  deriving DecidableEq, Repr

/-- Go `errors.New`. -/
def errors_New (text : String) : GoError := GoError.errorString text

/-! ## Data model -/

/-- Go `Transaction`. -/
structure Transaction where
  Date : String := ""
  Details : String := ""
  Description : String := ""
  Amount : String := ""
  Balance : String := ""
  deriving DecidableEq, Repr

/-- Go `Card`; `{}` is the zero value. -/
structure Card where
  CardNo : String := ""
  AccountNo : String := ""
  LoadsToDate : String := ""
  PurchasesToDate : String := ""
  AvailableBalance : String := ""
  PurchasedDate : String := ""
  ExpiryDate : String := ""
  Transactions : List Transaction := []
  deriving DecidableEq, Repr

/-- The fields of `colly.Response` the package reads or writes. -/
structure CollyResponse where
  StatusCode : Int := 0
  Body : List Nat := []
  deriving DecidableEq, Repr

set_option linter.dupNamespace false in
/-- Go `Response`: it embeds a `*colly.Response`, nil in the zero value `{}`. -/
structure Response where
  Response : Option CollyResponse := none
  deriving DecidableEq, Repr

/-- Go `rsa.PublicKey`: `N` is a `*big.Int`, nil in the zero value `{}`. -/
structure PublicKey where
  N : Option Int := none
  E : Int := 0
  deriving DecidableEq, Repr

/-- Go `Client`; `BaseURL` stands for the text `c.BaseURL.String()`. -/
structure Client where
  BaseURL : String
  publicKey : PublicKey

/-- Go `http.StatusUnauthorized`. -/
def StatusUnauthorized : Int := 401

/-- Go `http.StatusInternalServerError`. -/
def StatusInternalServerError : Int := 500

/-! ## `strings.TrimSpace` -/

/-- Go `unicode.IsSpace`: the code points with the Unicode White Space property. -/
def isSpace (c : Char) : Bool :=
  let n := c.toNat
  n == 0x09 || n == 0x0A || n == 0x0B || n == 0x0C || n == 0x0D || n == 0x20 ||
  n == 0x85 || n == 0xA0 || n == 0x1680 || (0x2000 ≤ n && n ≤ 0x200A) ||
  n == 0x2028 || n == 0x2029 || n == 0x202F || n == 0x205F || n == 0x3000

/-- Go `strings.TrimSpace`: the string without its leading and trailing white space. -/
def TrimSpace (s : String) : String :=
  String.mk ((s.data.dropWhile isSpace).rdropWhile isSpace)

/-! ## The parsed page (goquery) -/

/-- A node of the parsed HTML tree: a text node, or an element with its tag, its
`id` and `class` attributes and its children. -/
inductive Node where
  | text (data : String)
  | element (tag : String) (id : Option String) (classes : List String)
      (children : List Node)

/-- A parsed document: its top-level nodes. -/
abbrev Document := List Node

/-- The selector steps the package uses: `#name`, `.name`, `name` and
`name:nth-of-type(n)`. -/
inductive Simple where
  | id (name : String)
  | cls (name : String)
  | tag (name : String)
  | nthOfType (tag : String) (n : Nat)
  deriving DecidableEq, Repr

/-- The selectors the package uses: one step, or `a s` (an `s` below an `a`). -/
inductive Selector where
  | simple (s : Simple)
  | descendant (a : Simple) (s : Simple)
  deriving DecidableEq, Repr

/-- Whether a node is an element with the given tag. -/
def Node.hasTag (t : String) : Node → Bool
  | .text _ => false
  | .element tag _ _ _ => tag == t

/-- Whether the node, whose preceding siblings are `before`, matches the step. -/
def Simple.test (s : Simple) (before : List Node) : Node → Bool
  | .text _ => false
  | .element elemTag elemId classes _ =>
    match s with
    | .id name => elemId == some name
    | .cls name => classes.contains name
    | .tag name => elemTag == name
    | .nthOfType name n =>
      elemTag == name && (before.filter (Node.hasTag name)).length + 1 == n

mutual
/-- The elements among `ns` and below them that match `s`, in document order.
`under` says whether the ancestor step `a`, when there is one, is already met
above; `before` holds the siblings that precede `ns`. -/
def findIn (a : Option Simple) (s : Simple) (under : Bool) (before : List Node) :
    List Node → List Node
  | [] => []
  | n :: rest => findNode a s under before n ++ findIn a s under (before ++ [n]) rest
/-- The node itself when it matches, followed by the matches below it. -/
def findNode (a : Option Simple) (s : Simple) (under : Bool) (before : List Node) :
    Node → List Node
  | .text _ => []
  | .element tag ident classes children =>
    (if under && s.test before (.element tag ident classes children)
      then [.element tag ident classes children] else []) ++
    findIn a s
      (under || (match a with
        | none => false
        | some anc => anc.test before (.element tag ident classes children)))
      [] children
end

/-- Modelled library: goquery `doc.Find(selector)`, the matching elements of the
document in document order. -/
def Document.Find (doc : Document) : Selector → List Node
  | .simple s => findIn none s true [] doc
  | .descendant a s => findIn (some a) s false [] doc

/-- Modelled library: goquery `Find` on one element with a one-step selector, the
matching elements below it in document order. -/
def Node.Find (e : Node) (s : Simple) : List Node :=
  match e with
  | .text _ => []
  | .element _ _ _ children => findIn none s true [] children

mutual
/-- Modelled library: the `Text` of a colly `HTMLElement`, the text nodes at and
below the node joined in document order. -/
def Node.Text : Node → String
  | .text data => data
  | .element _ _ _ children => textOfNodes children
/-- The texts of the nodes joined: goquery `Selection.Text`. -/
def textOfNodes : List Node → String
  | [] => ""
  | n :: rest => Node.Text n ++ textOfNodes rest
end

/-- Modelled library: colly `HTMLElement.ChildText(selector)`, defined there as
`strings.TrimSpace(h.DOM.Find(selector).Text())`. -/
def Node.ChildText (e : Node) (s : Simple) : String :=
  TrimSpace (textOfNodes (e.Find s))

/-! ## Bytes, `fmt` and `encoding/hex` -/

/-- The UTF-8 encoding of one character, as the bytes of a Go string hold it. -/
def utf8Bytes (c : Char) : List Nat :=
  let n := c.toNat
  if n < 0x80 then [n]
  else if n < 0x800 then [0xC0 + n / 64, 0x80 + n % 64]
  else if n < 0x10000 then [0xE0 + n / 4096, 0x80 + n / 64 % 64, 0x80 + n % 64]
  else [0xF0 + n / 262144, 0x80 + n / 4096 % 64, 0x80 + n / 64 % 64, 0x80 + n % 64]

/-- Go `[]byte(s)`. -/
def bytesOf (s : String) : List Nat := s.data.flatMap utf8Bytes

/-- Modelled library: `fmt.Sprintf("%x", b)` for a byte slice, two lowercase
hexadecimal digits for each byte. -/
def Sprintf_x (b : List Nat) : String :=
  String.mk (b.flatMap fun x => [Nat.digitChar (x / 16), Nat.digitChar (x % 16)])

/-- The value of a digit character: `0`-`9`, then letters of either case from 10. -/
def digitVal (c : Char) : Option Nat :=
  let n := c.toNat
  if 48 ≤ n ∧ n ≤ 57 then some (n - 48)
  else if 97 ≤ n ∧ n ≤ 122 then some (n - 87)
  else if 65 ≤ n ∧ n ≤ 90 then some (n - 55)
  else none

/-- The value of a hexadecimal digit, none for any other character. -/
def fromHexChar (c : Char) : Option Nat :=
  match digitVal c with
  | some d => if d < 16 then some d else none
  | none => none

/-- Modelled library: `hex.DecodeString` on the characters of the string; none
stands for its error (odd length or a character that is no digit). -/
def decodeHex : List Char → Option (List Nat)
  | [] => some []
  | [_] => none
  | a :: b :: rest =>
    match fromHexChar a, fromHexChar b, decodeHex rest with
    | some x, some y, some bs => some ((x * 16 + y) :: bs)
    | _, _, _ => none

/-- Go `hex.DecodeString`. -/
def DecodeString (s : String) : Option (List Nat) := decodeHex s.data

/-! ## `math/big` and `strconv` -/

/-- The digits read left to right in the given base; none when there is no digit or a
character is no digit of the base. -/
def scanDigits (base : Nat) (cs : List Char) : Option Nat :=
  if cs = [] then none
  else cs.foldlM (fun acc c =>
    match digitVal c with
    | some d => if d < base then some (acc * base + d) else none
    | none => none) 0

/-- Modelled library: `(*big.Int).SetString(s, base)` for a base from 2 to 36: an
optional sign, then digits up to the end of the string; none stands for `ok`
being false. -/
def SetString (s : String) (base : Nat) : Option Int :=
  match s.data with
  | '+' :: rest => (scanDigits base rest).map fun (n : Nat) => (n : Int)
  | '-' :: rest => (scanDigits base rest).map fun (n : Nat) => -(n : Int)
  | cs => (scanDigits base cs).map fun (n : Nat) => (n : Int)

/-- Go `strconv.IntSize` on a 64-bit platform. -/
def IntSize : Nat := 64

/-- One step of the digit loop of `strconv.ParseUint`. -/
def parseUintStep (base maxVal : Nat) (acc : Except NumErrorKind Nat) (c : Char) :
    Except NumErrorKind Nat :=
  match acc with
  | .error e => .error e
  | .ok n =>
    match digitVal c with
    | none => .error .ErrSyntax
    | some d =>
      if d ≥ base then .error .ErrSyntax
      else if n ≥ (2 ^ 64 - 1) / base + 1 then .error .ErrRange
      else if n * base + d ≥ 2 ^ 64 ∨ n * base + d > maxVal then .error .ErrRange
      else .ok (n * base + d)

/-- Modelled library: `strconv.ParseUint(s, base, bitSize)` for an explicit base from
2 to 36, giving the value or the kind of its `NumError`. -/
def ParseUint (s : List Char) (base bitSize : Nat) : Except NumErrorKind Nat :=
  if s = [] then .error .ErrSyntax
  else s.foldl (parseUintStep base (2 ^ (if bitSize = 0 then IntSize else bitSize) - 1)) (.ok 0)

/-- Modelled library: `strconv.ParseInt(s, base, bitSize)` for an explicit base from 2
to 36. -/
def ParseInt (s : String) (base bitSize : Nat) : Except GoError Int :=
  if s.data = [] then .error (.numError "ParseInt" s .ErrSyntax)
  else
    let neg := s.data.head? = some '-'
    let rest := if s.data.head? = some '+' ∨ s.data.head? = some '-' then s.data.tail else s.data
    match ParseUint rest base bitSize with
    | .error .ErrSyntax => .error (.numError "ParseInt" s .ErrSyntax)
    | .error .ErrRange => .error (.numError "ParseInt" s .ErrRange)
    | .ok un =>
      let cutoff := 2 ^ ((if bitSize = 0 then IntSize else bitSize) - 1)
      if ¬ neg ∧ un ≥ cutoff then .error (.numError "ParseInt" s .ErrRange)
      else if neg ∧ un > cutoff then .error (.numError "ParseInt" s .ErrRange)
      else .ok (if neg then -(un : Int) else (un : Int))

/-- Go `makePublicKey`: the key and the error it returns. -/
def makePublicKey (modulus : String) (exp : String) : PublicKey × Option GoError :=
  match SetString modulus 16 with
  | none => ({}, some (errors_New "invalid modulus"))
  | some n =>
    match ParseInt exp 16 0 with
    | .error err => ({}, some err)
    | .ok e => ({ N := some n, E := e }, none)

/-! ## `crypto/rsa` -/

/-- Go `big.Int.SetBytes`: the number a big-endian byte string stands for. -/
def OS2IP (b : List Nat) : Nat := b.foldl (fun acc x => acc * 256 + x) 0

/-- The number `x` as `k` big-endian bytes, padded on the left with zeros. -/
def I2OSP : Nat → Nat → List Nat
  | 0, _ => []
  | k + 1, x => I2OSP k (x / 256) ++ [x % 256]

/-- Go `(pub.N.BitLen() + 7) / 8`, the length of the modulus in bytes. -/
def PublicKey.Size (pub : PublicKey) : Nat :=
  match pub.N with
  | none => 0
  | some n => (Nat.size n.natAbs + 7) / 8

/-- Go `rsa.ErrMessageTooLong`. -/
def ErrMessageTooLong : GoError :=
  errors_New "crypto/rsa: message too long for RSA public key size"

/-- Go `rsa.ErrDecryption`. -/
def ErrDecryption : GoError := errors_New "crypto/rsa: decryption error"

/-- Modelled library: `checkPub` of `crypto/rsa`, the sanity check of a public key. -/
def checkPub (pub : PublicKey) : Option GoError :=
  match pub.N with
  | none => some (errors_New "crypto/rsa: missing public modulus")
  | some _ =>
    if pub.E < 2 then some (errors_New "crypto/rsa: public exponent too small")
    else if pub.E > 2 ^ 31 - 1 then some (errors_New "crypto/rsa: public exponent too large")
    else none

/-- Modelled library: the padding string of `n` non-zero bytes drawn from the random
source; `rand i` is the draw that decides the byte at position `i`. -/
def nonZeroRandomBytes (rand : Nat → Nat) (n : Nat) : List Nat :=
  (List.range n).map fun i => rand i % 255 + 1

/-- Modelled library: `rsa.EncryptPKCS1v15(rand, pub, msg)`.  The encoded message is
`0x00 || 0x02 || PS || 0x00 || msg`, raised to `E` modulo `N` and written on as many
bytes as the modulus has. -/
def EncryptPKCS1v15 (rand : Nat → Nat) (pub : PublicKey) (msg : List Nat) :
    Except GoError (List Nat) :=
  match checkPub pub with
  | some err => .error err
  | none =>
    let k := pub.Size
    if msg.length + 11 > k then .error ErrMessageTooLong
    else
      let ps := nonZeroRandomBytes rand (k - msg.length - 3)
      let em := [0, 2] ++ ps ++ [0] ++ msg
      .ok (I2OSP k (OS2IP em ^ pub.E.toNat % (pub.N.getD 0).natAbs))

/-- Go `encryptPinWithPublicKey`, with the random source it reads made explicit. -/
def encryptPinWithPublicKey (rand : Nat → Nat) (pin : String) (publicKey : PublicKey) :
    Except GoError (List Nat) :=
  EncryptPKCS1v15 rand publicKey (bytesOf (pin ++ "|" ++ randomNo))

/-- Go `rsa.PrivateKey`: the public key and the private exponent. -/
structure PrivateKey where
  PublicKey : PublicKey
  D : Nat

/-- The position of the first zero byte of `em` at or after position `i`, none when
there is none: the loop of `decryptPKCS1v15` that looks for the end of the padding. -/
def findZero : List Nat → Nat → Option Nat
  | [], _ => none
  | x :: rest, i => if x = 0 then some i else findZero rest (i + 1)

/-- Modelled library: `rsa.DecryptPKCS1v15(nil, priv, ciphertext)`, which the test
`testPin` applies to the posted field. -/
def DecryptPKCS1v15 (priv : PrivateKey) (ciphertext : List Nat) : Except GoError (List Nat) :=
  match checkPub priv.PublicKey with
  | some err => .error err
  | none =>
    let k := priv.PublicKey.Size
    let n := (priv.PublicKey.N.getD 0).natAbs
    if k < 11 then .error ErrDecryption
    else
      let c := OS2IP ciphertext
      if c > n ∨ n = 0 then .error ErrDecryption
      else
        let em := I2OSP k (c ^ priv.D % n)
        match findZero (em.drop 2) 2 with
        | none => .error ErrDecryption
        | some index =>
          if em.head? = some 0 ∧ (em.drop 1).head? = some 2 ∧ 2 + 8 ≤ index
          then .ok (em.drop (index + 1))
          else .error ErrDecryption

/-! ## The collector (colly) and `GetCard` -/

/-- The variables `card`, `response` and `err` of `GetCard`, which its callbacks
capture and assign. -/
structure Env where
  card : Card := {}
  response : Response := {}
  err : Option GoError := none

/-- An HTTP reply as the transport hands it to colly, with what the libraries derive
from it:
* `StatusCode` and `Body`: the status code and the body the transport read;
* `StatusText`: the text `http.StatusText` has for the status code;
* `decoded`: the body after the charset handling of colly, which is `Body` itself
  unless the content type names a charset other than UTF-8;
* `isHTML`: whether the `Content-Type` header, in lower case, contains `html`;
* `doc`: the page goquery parses from the decoded body. -/
structure Reply where
  StatusCode : Int
  StatusText : String
  Body : List Nat
  decoded : List Nat
  isHTML : Bool
  doc : Document

/-- What the remote side and the transport answer to one `Post`.  This is a parameter
of `GetCard`:
* `refused`: `Post` returns an error and runs no callback (`GetCard` discards what
  `Post` returns);
* `failed r e`: the transport fails with the error `e`, colly passing `r` along;
* `replied reply`: an HTTP reply arrives. -/
inductive Fetched where
  | refused
  | failed (r : CollyResponse) (e : GoError)
  | replied (reply : Reply)

/-- The remote side: what each posted URL and form leads to. -/
abbrev Network := String → Form → Fetched

/-- A colly collector: the callbacks registered on it, in the order of registration.
An HTML callback that dereferences a nil pointer panics, which is none here. -/
structure Collector where
  htmlCallbacks : List (Selector × (Node → Env → Option Env)) := []
  responseCallbacks : List (CollyResponse → Env → Env) := []
  errorCallbacks : List (CollyResponse → GoError → Env → Env) := []

/-- Go `colly.NewCollector()`. -/
def NewCollector : Collector := {}

/-- Go `co.OnHTML(selector, f)`. -/
def Collector.OnHTML (co : Collector) (selector : Selector) (f : Node → Env → Option Env) :
    Collector :=
  { co with htmlCallbacks := co.htmlCallbacks ++ [(selector, f)] }

/-- Go `co.OnResponse(f)`. -/
def Collector.OnResponse (co : Collector) (f : CollyResponse → Env → Env) : Collector :=
  { co with responseCallbacks := co.responseCallbacks ++ [f] }

/-- Go `co.OnError(f)`. -/
def Collector.OnError (co : Collector) (f : CollyResponse → GoError → Env → Env) :
    Collector :=
  { co with errorCallbacks := co.errorCallbacks ++ [f] }

/-- Modelled library: how colly runs the `OnHTML` callbacks on a page: callback after
callback in the order of registration, each on every element its selector finds, in
document order. -/
def Collector.handleOnHTML (co : Collector) (doc : Document) (env : Env) : Option Env :=
  co.htmlCallbacks.foldlM
    (fun env cb => (doc.Find cb.1).foldlM (fun env e => cb.2 e env) env) env

/-- Modelled library: `co.Post(URL, requestData)` on a collector with the default
settings (`ParseHTTPErrorResponse` false): the callbacks colly runs for what the remote
side answers.  A transport failure runs the `OnError` callbacks.  So does a reply whose
status code is 203 or more, with the status text as the error and the reply as read;
such a reply is not parsed.  Any other reply runs the `OnResponse` callbacks on the
reply with its decoded body and then, when its content type is HTML, the `OnHTML`
callbacks on the parsed page. -/
def Collector.Post (co : Collector) (URL : String) (requestData : Form) (net : Network)
    (env : Env) : Option Env :=
  match net URL requestData with
  | .refused => some env
  | .failed r e => some (co.errorCallbacks.foldl (fun env f => f r e env) env)
  | .replied reply =>
    if reply.StatusCode ≥ 203 then
      some (co.errorCallbacks.foldl
        (fun env f =>
          f { StatusCode := reply.StatusCode, Body := reply.Body } (errors_New reply.StatusText)
            env)
        env)
    else
      let env := co.responseCallbacks.foldl
        (fun env f => f { StatusCode := reply.StatusCode, Body := reply.decoded } env) env
      if reply.isHTML then co.handleOnHTML reply.doc env else some env

/-- The assignment `response.StatusCode = code`: `StatusCode` is a field of the
embedded `*colly.Response`, so the assignment panics (none) when that pointer is nil. -/
def setStatusCode (response : Response) (code : Int) : Option Response :=
  match response.Response with
  | none => none
  | some r => some { Response := some { r with StatusCode := code } }

/-- The callback on `#ctl00_DefaultContent_lblMembershipNumber`. -/
def onMembershipNumber (e : Node) (env : Env) : Option Env :=
  some { env with card := { env.card with CardNo := TrimSpace e.Text } }

/-- The callback on `#ctl00_DefaultContent_lblAccountNumber`. -/
def onAccountNumber (e : Node) (env : Env) : Option Env :=
  some { env with card := { env.card with AccountNo := TrimSpace e.Text } }

/-- The callback on `#ctl00_DefaultContent_lblcardvalue`. -/
def onCardValue (e : Node) (env : Env) : Option Env :=
  some { env with card := { env.card with LoadsToDate := TrimSpace e.Text } }

/-- The callback on `#ctl00_DefaultContent_lblpurchasestodate`. -/
def onPurchasesToDate (e : Node) (env : Env) : Option Env :=
  some { env with card := { env.card with PurchasesToDate := TrimSpace e.Text } }

/-- The callback on `#ctl00_DefaultContent_lblavailablebalance`. -/
def onAvailableBalance (e : Node) (env : Env) : Option Env :=
  some { env with card := { env.card with AvailableBalance := TrimSpace e.Text } }

/-- The callback on `#ctl00_DefaultContent_lblCardPurchasedDate`. -/
def onCardPurchasedDate (e : Node) (env : Env) : Option Env :=
  some { env with card := { env.card with PurchasedDate := TrimSpace e.Text } }

/-- The callback on `#ctl00_DefaultContent_lblCardExpiryDate`. -/
def onCardExpiryDate (e : Node) (env : Env) : Option Env :=
  some { env with card := { env.card with ExpiryDate := TrimSpace e.Text } }

/-- The callback on `#htmltdErrorDescription`. -/
def onErrorDescription (e : Node) (env : Env) : Option Env :=
  match setStatusCode env.response StatusUnauthorized with
  | none => none
  | some response => some { env with err := some (errors_New e.Text), response := response }

/-- The callback on `.content-error h3`. -/
def onContentError (_e : Node) (env : Env) : Option Env :=
  match setStatusCode env.response StatusInternalServerError with
  | none => none
  | some response =>
    some { env with err := some (errors_New "internal server error"), response := response }

/-- The body of the `ForEach("tr", ...)` callback for the row `el` at index `i`. -/
def onRow (i : Nat) (el : Node) (card : Card) : Card :=
  if i = 0 then card
  else
    let transaction : Transaction :=
      { Date := TrimSpace (el.ChildText (.nthOfType "td" 1))
        Details := TrimSpace (el.ChildText (.nthOfType "td" 2))
        Description := TrimSpace (el.ChildText (.nthOfType "td" 3))
        Amount := TrimSpace (el.ChildText (.nthOfType "td" 4))
        Balance := TrimSpace (el.ChildText (.nthOfType "td" 5)) }
    { card with Transactions := card.Transactions ++ [transaction] }

/-- Modelled library: colly `e.ForEach(selector, f)`: `f` on each element found below
`e`, with its index counted from 0. -/
def Node.ForEach (e : Node) (s : Simple) (f : Nat → Node → Card → Card) (card : Card) : Card :=
  (e.Find s).enum.foldl (fun card p => f p.1 p.2 card) card

/-- The callback on `#dgPointsStatement tbody`. -/
def onPointsStatement (e : Node) (env : Env) : Option Env :=
  some { env with card := e.ForEach (.tag "tr") onRow env.card }

/-- The `OnResponse` callback: `response = &Response{Response: r}`. -/
def onResponse (r : CollyResponse) (env : Env) : Env :=
  { env with response := { Response := some r } }

/-- The `OnError` callback: `err = e` and `response.Response = r`. -/
def onError (r : CollyResponse) (e : GoError) (env : Env) : Env :=
  { env with err := some e, response := { env.response with Response := some r } }

/-- What a call of `GetCard` returns and does: the three results, the package-level
map `body` after the call, and the URL and form handed to `co.Post`, none when
`Post` is not reached. -/
structure Result where
  card : Card
  response : Response
  err : Option GoError
  body : Form
  posted : Option (String × Form)

/-- Go `(c *Client) GetCard(cardNo, pin)`.  Besides the receiver and the two
arguments it depends on the random source of the encryption, on the remote side and
on the package-level map `body` as the call finds it.  The result is none when the
call panics. -/
def GetCard (c : Client) (cardNo : String) (pin : String) (rand : Nat → Nat) (net : Network)
    (body : Form) : Option Result :=
  let card : Card := {}
  let response : Response := {}
  match encryptPinWithPublicKey rand pin c.publicKey with
  | .error err => some { card := card, response := response, err := some err, body := body, posted := none }
  | .ok encryptedPin =>
    let co := NewCollector
    let co := co.OnHTML (.simple (.id "ctl00_DefaultContent_lblMembershipNumber")) onMembershipNumber
    let co := co.OnHTML (.simple (.id "ctl00_DefaultContent_lblAccountNumber")) onAccountNumber
    let co := co.OnHTML (.simple (.id "ctl00_DefaultContent_lblcardvalue")) onCardValue
    let co := co.OnHTML (.simple (.id "ctl00_DefaultContent_lblpurchasestodate")) onPurchasesToDate
    let co := co.OnHTML (.simple (.id "ctl00_DefaultContent_lblavailablebalance")) onAvailableBalance
    let co := co.OnHTML (.simple (.id "ctl00_DefaultContent_lblCardPurchasedDate")) onCardPurchasedDate
    let co := co.OnHTML (.simple (.id "ctl00_DefaultContent_lblCardExpiryDate")) onCardExpiryDate
    let co := co.OnHTML (.simple (.id "htmltdErrorDescription")) onErrorDescription
    let co := co.OnHTML (.descendant (.cls "content-error") (.tag "h3")) onContentError
    let co := co.OnHTML (.descendant (.id "dgPointsStatement") (.tag "tbody")) onPointsStatement
    let co := co.OnResponse onResponse
    let co := co.OnError onError
    let body := body.set "txtCardNumber" cardNo
    let body := body.set "hdnrequest" (Sprintf_x encryptedPin)
    match co.Post c.BaseURL body net { card := card, response := response, err := none } with
    | none => none
    | some env =>
      some { card := env.card, response := env.response, err := env.err, body := body,
             posted := some (c.BaseURL, body) }

/-- Go `NewClient`, which discards the error of `makePublicKey`. -/
def NewClient : Client :=
  { BaseURL := baseURL, publicKey := (makePublicKey modulus exp).1 }

/-! ## What a page determines

Closed forms of what the callbacks of `GetCard` leave behind; the theorems below
prove that `GetCard` computes them. -/

/-- The value a summary field ends with: the trimmed text of the last element with
the identifier, the empty string when the page has none. -/
def summaryText (doc : Document) (name : String) : String :=
  match (doc.Find (.simple (.id name))).getLast? with
  | none => ""
  | some e => TrimSpace e.Text

/-- The text of the `n`-th `td` cell of a row: the texts, joined, of the `td` elements
below the row that are the `n`-th `td` among their siblings (for a row of plain cells,
the text of its `n`-th cell). -/
def cellText (row : Node) (n : Nat) : String := textOfNodes (row.Find (.nthOfType "td" n))

/-- The transaction read from a row: the trimmed texts of its first five cells. -/
def rowTransaction (row : Node) : Transaction :=
  { Date := TrimSpace (cellText row 1)
    Details := TrimSpace (cellText row 2)
    Description := TrimSpace (cellText row 3)
    Amount := TrimSpace (cellText row 4)
    Balance := TrimSpace (cellText row 5) }

/-- The elements `#dgPointsStatement tbody` of the page. -/
def statementBodies (doc : Document) : List Node :=
  doc.Find (.descendant (.id "dgPointsStatement") (.tag "tbody"))

/-- The transactions the page gives: for each `tbody` below `#dgPointsStatement`, the
rows below it without the first, in document order. -/
def pageTransactions (doc : Document) : List Transaction :=
  (statementBodies doc).flatMap fun tbody => (tbody.Find (.tag "tr")).tail.map rowTransaction

/-- The identifiers of the seven summary elements, in the order of the `Card` fields. -/
def summaryIds : List String :=
  [ "ctl00_DefaultContent_lblMembershipNumber", "ctl00_DefaultContent_lblAccountNumber",
    "ctl00_DefaultContent_lblcardvalue", "ctl00_DefaultContent_lblpurchasestodate",
    "ctl00_DefaultContent_lblavailablebalance", "ctl00_DefaultContent_lblCardPurchasedDate",
    "ctl00_DefaultContent_lblCardExpiryDate" ]

/-- The card the page gives. -/
def pageCard (doc : Document) : Card :=
  { CardNo := summaryText doc "ctl00_DefaultContent_lblMembershipNumber"
    AccountNo := summaryText doc "ctl00_DefaultContent_lblAccountNumber"
    LoadsToDate := summaryText doc "ctl00_DefaultContent_lblcardvalue"
    PurchasesToDate := summaryText doc "ctl00_DefaultContent_lblpurchasestodate"
    AvailableBalance := summaryText doc "ctl00_DefaultContent_lblavailablebalance"
    PurchasedDate := summaryText doc "ctl00_DefaultContent_lblCardPurchasedDate"
    ExpiryDate := summaryText doc "ctl00_DefaultContent_lblCardExpiryDate"
    Transactions := pageTransactions doc }

/-- The page carries nothing a card is filled from: none of the seven summary
elements, and no row after the first in any `tbody` below `#dgPointsStatement`. -/
def carriesNoCardData (doc : Document) : Prop :=
  (∀ name ∈ summaryIds, doc.Find (.simple (.id name)) = []) ∧
  ∀ tbody ∈ statementBodies doc, (tbody.Find (.tag "tr")).tail = []

/-- The elements `#htmltdErrorDescription` of the page (authentication error). -/
def authErrors (doc : Document) : List Node := doc.Find (.simple (.id "htmltdErrorDescription"))

/-- The elements `.content-error h3` of the page (application error). -/
def appErrors (doc : Document) : List Node :=
  doc.Find (.descendant (.cls "content-error") (.tag "h3"))

/-- The error the page gives: the fixed application error when the page has an
application-error heading, else one with the text of the last authentication-error
element, else none. -/
def pageErr (doc : Document) : Option GoError :=
  match (appErrors doc).getLast? with
  | some _ => some (errors_New "internal server error")
  | none =>
    match (authErrors doc).getLast? with
    | some e => some (errors_New e.Text)
    | none => none

/-- The status code the page leaves in a response whose own status is `status`. -/
def pageStatus (doc : Document) (status : Int) : Int :=
  match (appErrors doc).getLast? with
  | some _ => StatusInternalServerError
  | none =>
    match (authErrors doc).getLast? with
    | some _ => StatusUnauthorized
    | none => status

/-- The page colly parses for what the remote side answers: the page of a reply whose
status code is below 203 and whose content type is HTML; none in every other case. -/
def parsedPage : Fetched → Option Document
  | .refused => none
  | .failed _ _ => none
  | .replied reply =>
    if reply.StatusCode < 203 ∧ reply.isHTML = true then some reply.doc else none

/-- The values of `card`, `response` and `err` after `co.Post`, for each thing the
remote side can answer. -/
def fetchedEnv : Fetched → Env
  | .refused => {}
  | .failed r e => { response := { Response := some r }, err := some e }
  | .replied reply =>
    if reply.StatusCode ≥ 203 then
      { response := { Response := some { StatusCode := reply.StatusCode, Body := reply.Body } }
        err := some (errors_New reply.StatusText) }
    else if reply.isHTML = true then
      { card := pageCard reply.doc
        response :=
          { Response :=
              some { StatusCode := pageStatus reply.doc reply.StatusCode, Body := reply.decoded } }
        err := pageErr reply.doc }
    else
      { response :=
          { Response := some { StatusCode := reply.StatusCode, Body := reply.decoded } } }

/-- The form `GetCard` hands to `co.Post`: the map `body` with the two assignments of
the call made. -/
def requestForm (body : Form) (cardNo : String) (encryptedPin : List Nat) : Form :=
  (body.set "txtCardNumber" cardNo).set "hdnrequest" (Sprintf_x encryptedPin)

/-- The seven fields of a posted form, for a card number and an encrypted PIN in
hexadecimal. -/
def sevenFields (cardNo : String) (hdnrequest : String) : List (String × String) :=
  [ ("__VIEWSTATE",
      "/wEPDwUJODY3MDYzNzgzD2QWAgIDD2QWBmYPFgIeB1Zpc2libGVoZAIDDw9kFgIeB29uY2xpY2sFFXJldHVybiBnZXRwYXNzd29yZCgpO2QCBg8WAh8AaGRkXcXstETbLhPK3PqD3TU7Io+Xaw4="),
    ("__VIEWSTATEGENERATOR", "5898F960"),
    ("__EVENTVALIDATION",
      "/wEWBgKuoL7TCwLi0uqnCgK1qbSRCwKFoZPNAwLQvbH7BAL8yZzMCZCDAp2k+4wbYm+6XCicWxiA53iU"),
    ("cmdLogin", "\xc2\xa0Log+in "),
    ("hdnrandomnumber", "7464663221746466322174646632217464663221"),
    ("txtCardNumber", cardNo),
    ("hdnrequest", hdnrequest) ]

/-- The states the package-level map `body` can be in when a call of `GetCard`
starts: as initialised, or as an earlier call of `GetCard` (on any client, with any
arguments, random source and remote side) left it. -/
inductive Reachable : Form → Prop where
  | init : Reachable body
  | call (b : Form) (c : Client) (cardNo pin : String) (rand : Nat → Nat) (net : Network)
      (res : Result) : Reachable b → GetCard c cardNo pin rand net b = some res →
      Reachable res.body

/-! ## Hexadecimal integers, stated directly -/

/-- Whether the character is a hexadecimal digit of either case. -/
def isHexChar (c : Char) : Bool :=
  (48 ≤ c.toNat && c.toNat ≤ 57) || (97 ≤ c.toNat && c.toNat ≤ 102) ||
  (65 ≤ c.toNat && c.toNat ≤ 70)

/-- The value of a hexadecimal digit. -/
def hexCharValue (c : Char) : Nat :=
  if c.toNat ≤ 57 then c.toNat - 48 else if 97 ≤ c.toNat then c.toNat - 87 else c.toNat - 55

/-- The characters of the string after its sign, if it has one. -/
def unsigned (s : String) : List Char :=
  match s.data with
  | '+' :: rest => rest
  | '-' :: rest => rest
  | cs => cs

/-- The string is a hexadecimal integer: an optional sign, then one hexadecimal digit
or more and nothing else. -/
def isHexInteger (s : String) : Prop :=
  unsigned s ≠ [] ∧ ∀ c ∈ unsigned s, isHexChar c = true

/-- The number the hexadecimal digits stand for, most significant digit first. -/
def hexDigitsValue (cs : List Char) : Nat := Nat.ofDigits 16 (cs.reverse.map hexCharValue)

/-- The integer a hexadecimal integer stands for: its digits read in base 16, negated
after a minus sign. -/
def hexValue (s : String) : Int :=
  if s.data.head? = some '-' then -(hexDigitsValue (unsigned s) : Int)
  else (hexDigitsValue (unsigned s) : Int)

/-! ## Modular exponentiation by squaring, for the concrete keys -/

/-- The power `a ^ e` modulo `m` by repeated squaring, `fuel` bounding the depth. -/
def powModAux : Nat → Nat → Nat → Nat → Nat
  | 0, _, _, m => 1 % m
  | fuel + 1, a, e, m =>
    if e = 0 then 1 % m
    else
      let h := powModAux fuel a (e / 2) m
      if e % 2 = 0 then h * h % m else h * h % m * a % m

/-- The power `a ^ e` modulo `m`. -/
def powMod (a e m : Nat) : Nat := powModAux e a e m

/-! ## Concrete inputs -/

/-- The modulus of the package, `modulus` read in base 16. -/
def clientN : Nat :=
  148966385809645487858843002724471897103813160712809764572144270019585146700380305213144517278447503350107981648505795800864481179270501080148278154452547455141415397901570458426112366031679940709778907973654956490814269101122659549208935037108997137370803865196868010191637343494612976566420897021670788191917

/-- The card number of the tests. -/
def sampleCardNo : String := "5021234567890"

/-- The PIN of the tests. -/
def samplePin : String := "0000"

/-- A random source whose every draw is 0. -/
def zeroRand : Nat → Nat := fun _ => 0

/-- An element with one text child. -/
def textElement (tag : String) (ident : Option String) (classes : List String)
    (data : String) : Node :=
  .element tag ident classes [.text data]

/-- A table row of `td` cells. -/
def tableRow (cells : List String) : Node :=
  .element "tr" none [] (cells.map fun data => textElement "td" none [] data)

/-- A page wrapping the given nodes in `html` and `body`, after an empty `head`. -/
def pageOf (nodes : List Node) : Document :=
  [.element "html" none [] [.element "head" none [] [], .element "body" none [] nodes]]

/-- The authentication-error element as the site serves it, a cell of a table. -/
def authErrorCell : Node :=
  textElement "td" (some "htmltdErrorDescription") [] "Invalid card number or password."

/-- A table of one row holding the given cell. -/
def tableOfCell (cell : Node) : Node :=
  .element "table" none [] [.element "tbody" none [] [.element "tr" none [] [cell]]]

/-- The body of a statement table: its title row and the two transactions of
`TestGetCard`. -/
def sampleStatementBody : Node :=
  .element "tbody" none []
    [ tableRow ["Date", "Details", "Description", "Amount", "Balance"],
      tableRow ["1 Jan 2018 12:04:45 PM", "Store Address", "Refund - Store Address",
        "$100.00", "$100.00"],
      tableRow ["2 Jan 2018 07:50:53 PM", "Store A", "Purchase - Store A",
        "$12.34-", "$56.78"] ]

/-- A card-summary page with the values of `TestGetCard`: the seven summary elements
and a statement table with its title row and two transactions. -/
def successPage : Document :=
  pageOf
    [ textElement "span" (some "ctl00_DefaultContent_lblMembershipNumber") [] " 50211234567890 ",
      textElement "span" (some "ctl00_DefaultContent_lblAccountNumber") [] "000000000",
      textElement "span" (some "ctl00_DefaultContent_lblcardvalue") [] "$100.00",
      textElement "span" (some "ctl00_DefaultContent_lblpurchasestodate") [] "-$54.32",
      textElement "span" (some "ctl00_DefaultContent_lblavailablebalance") [] "$12.34",
      textElement "span" (some "ctl00_DefaultContent_lblCardPurchasedDate") [] "1 Jan 2018",
      textElement "span" (some "ctl00_DefaultContent_lblCardExpiryDate") [] "1 Jan 2021",
      .element "table" (some "dgPointsStatement") [] [sampleStatementBody] ]

/-- A page with the authentication-error element only. -/
def authErrorPage : Document :=
  pageOf [tableOfCell authErrorCell]

/-- A page with the application-error heading only. -/
def appErrorPage : Document :=
  pageOf [.element "div" none ["content-error"] [textElement "h3" none [] "Application Error"]]

/-- A page with a card-number element and the authentication-error element. -/
def summaryAndErrorPage : Document :=
  pageOf
    [ textElement "span" (some "ctl00_DefaultContent_lblMembershipNumber") [] "50211234567890",
      tableOfCell authErrorCell ]

/-- A page with the authentication-error element and the application-error heading. -/
def bothErrorsPage : Document :=
  pageOf
    [ tableOfCell authErrorCell,
      .element "div" none ["content-error"] [textElement "h3" none [] "Application Error"] ]

/-- A reply with the given status, an empty body, an HTML content type and the given
page. -/
def htmlReply (status : Int) (statusText : String) (doc : Document) : Reply :=
  { StatusCode := status, StatusText := statusText, Body := [], decoded := [], isHTML := true,
    doc := doc }

/-- A remote side that answers every request with status 200 and the given page. -/
def serving (doc : Document) : Network :=
  fun _ _ => .replied (htmlReply 200 "OK" doc)

/-- A remote side that answers every request with status 404 and the given page. -/
def servingNotFound (doc : Document) : Network :=
  fun _ _ => .replied (htmlReply 404 "Not Found" doc)

/-- A prime, `3 * 2 ^ 276 + 1`. -/
def keyP : Nat :=
  364250417292324200797399107529409794995451282322276160234714826826044553475976593409

/-- A prime, `15 * 2 ^ 229 + 1`. -/
def keyQ : Nat := 12940774400232307101440167241769422723345829322819474790929732919623681

/-- The private exponent matching the public exponent 65537 for `keyP * keyQ`. -/
def keyD : Nat :=
  963746011542930198487404141867947242812628779997294447177923172736562942654292099073

/-! # Theorems -/

/-! ## Trimming -/

theorem dropWhile_rdropWhile_self {α : Type} (p : α → Bool) (l : List α)
    (h : ∀ x, l.head? = some x → p x = false) :
    (l.rdropWhile p).dropWhile p = l.rdropWhile p := by
  obtain ⟨t, ht⟩ := List.rdropWhile_prefix p (l := l)
  cases hr : l.rdropWhile p with
  | nil => rfl
  | cons a r =>
    rw [hr] at ht
    have ha : p a = false := h a (by rw [← ht]; rfl)
    simp [List.dropWhile_cons, ha]

/-- Trimming a trimmed string changes nothing. -/
theorem TrimSpace_idem (s : String) : TrimSpace (TrimSpace s) = TrimSpace s := by
  unfold TrimSpace
  congr 1
  have h : ∀ x, (s.data.dropWhile isSpace).head? = some x → isSpace x = false := by
    intro x hx
    have := List.head?_dropWhile_not isSpace s.data
    rw [hx] at this
    simpa using this
  show (((s.data.dropWhile isSpace).rdropWhile isSpace).dropWhile isSpace).rdropWhile isSpace = _
  rw [dropWhile_rdropWhile_self isSpace _ h, List.rdropWhile_idempotent]

/-! ## The callbacks over the elements of one selector -/

/-- A callback that assigns one field of the card leaves, after all elements, the
value of the last element, or the field as it was when there is no element. -/
theorem foldlM_setter (f : Node → Env → Option Env) (g : Card → String → Card)
    (get : Card → String)
    (hf : ∀ e env, f e env = some { env with card := g env.card (TrimSpace e.Text) })
    (hg : ∀ c a b, g (g c a) b = g c b) (hget : ∀ c, g c (get c) = c)
    (els : List Node) (env : Env) :
    els.foldlM (fun env e => f e env) env =
      some { env with
        card := g env.card (match els.getLast? with
          | none => get env.card
          | some e => TrimSpace e.Text) } := by
  induction els using List.reverseRecOn generalizing env with
  | nil => simp [hget]
  | append_singleton l a ih =>
    rw [List.foldlM_append, ih]
    simp [hf, hg]

theorem foldlM_onErrorDescription (els : List Node) (env : Env) (r : CollyResponse)
    (h : env.response = { Response := some r }) :
    els.foldlM (fun env e => onErrorDescription e env) env =
      some { env with
        err := (match els.getLast? with
          | none => env.err
          | some e => some (errors_New e.Text))
        response := { Response := some { r with
          StatusCode := (match els.getLast? with
            | none => r.StatusCode
            | some _ => StatusUnauthorized) } } } := by
  induction els using List.reverseRecOn with
  | nil =>
    cases env
    simp_all
  | append_singleton l a ih =>
    rw [List.foldlM_append, ih]
    simp [onErrorDescription, setStatusCode]

theorem foldlM_onContentError (els : List Node) (env : Env) (r : CollyResponse)
    (h : env.response = { Response := some r }) :
    els.foldlM (fun env e => onContentError e env) env =
      some { env with
        err := (match els.getLast? with
          | none => env.err
          | some _ => some (errors_New "internal server error"))
        response := { Response := some { r with
          StatusCode := (match els.getLast? with
            | none => r.StatusCode
            | some _ => StatusInternalServerError) } } } := by
  induction els using List.reverseRecOn with
  | nil =>
    cases env
    simp_all
  | append_singleton l a ih =>
    rw [List.foldlM_append, ih]
    simp [onContentError, setStatusCode]

/-- Rows at an index other than 0 are all appended, in order. -/
theorem foldl_onRow_enumFrom (rows : List Node) (k : Nat) (card : Card) :
    (rows.enumFrom (k + 1)).foldl (fun card p => onRow p.1 p.2 card) card =
      { card with Transactions := card.Transactions ++ rows.map rowTransaction } := by
  induction rows generalizing k card with
  | nil => simp
  | cons a l ih =>
    simp only [List.enumFrom_cons, List.foldl_cons, ih]
    simp [onRow, rowTransaction, cellText, Node.ChildText, TrimSpace_idem]

/-- The `ForEach` of the statement callback appends every row but the first. -/
theorem ForEach_onRow (e : Node) (card : Card) :
    e.ForEach (.tag "tr") onRow card =
      { card with
        Transactions := card.Transactions ++ (e.Find (.tag "tr")).tail.map rowTransaction } := by
  unfold Node.ForEach List.enum
  cases e.Find (.tag "tr") with
  | nil => simp
  | cons a l =>
    simp only [List.enumFrom_cons, List.foldl_cons, foldl_onRow_enumFrom]
    simp [onRow]

theorem foldlM_onPointsStatement (els : List Node) (env : Env) :
    els.foldlM (fun env e => onPointsStatement e env) env =
      some { env with
        card := { env.card with
          Transactions := env.card.Transactions ++
            els.flatMap fun tbody => (tbody.Find (.tag "tr")).tail.map rowTransaction } } := by
  induction els generalizing env with
  | nil => simp
  | cons a l ih =>
    have h : onPointsStatement a env = some { env with
        card := { env.card with
          Transactions := env.card.Transactions ++
            (a.Find (.tag "tr")).tail.map rowTransaction } } := by
      simp only [onPointsStatement, ForEach_onRow]
    rw [List.foldlM_cons, h]
    simp only [Option.bind_eq_bind, Option.some_bind]
    rw [ih]
    simp only [List.flatMap_cons, List.append_assoc]

/-! ## `GetCard` in closed form -/

/-- When the encryption fails `GetCard` returns at once. -/
theorem GetCard_encrypt_error (c : Client) (cardNo pin : String) (rand : Nat → Nat)
    (net : Network) (b : Form) (e : GoError)
    (henc : encryptPinWithPublicKey rand pin c.publicKey = .error e) :
    GetCard c cardNo pin rand net b =
      some { card := {}, response := {}, err := some e, body := b, posted := none } := by
  simp [GetCard, henc]

/-- When the encryption succeeds `GetCard` does not panic, and returns what
`fetchedEnv` says for the answer of the remote side. -/
theorem GetCard_ok (c : Client) (cardNo pin : String) (rand : Nat → Nat)
    (net : Network) (b : Form) (ct : List Nat)
    (henc : encryptPinWithPublicKey rand pin c.publicKey = .ok ct) :
    GetCard c cardNo pin rand net b =
      some { card := (fetchedEnv (net c.BaseURL (requestForm b cardNo ct))).card
             response := (fetchedEnv (net c.BaseURL (requestForm b cardNo ct))).response
             err := (fetchedEnv (net c.BaseURL (requestForm b cardNo ct))).err
             body := requestForm b cardNo ct
             posted := some (c.BaseURL, requestForm b cardNo ct) } := by
  cases hnet : net c.BaseURL (requestForm b cardNo ct) with
  | refused =>
    unfold requestForm at hnet
    simp [GetCard, henc, Collector.Post, hnet, fetchedEnv, requestForm]
  | failed r e =>
    unfold requestForm at hnet
    simp [GetCard, henc, Collector.Post, hnet, fetchedEnv, requestForm, NewCollector,
      Collector.OnHTML, Collector.OnResponse, Collector.OnError, onError]
  | replied reply =>
    unfold requestForm at hnet
    by_cases hstatus : reply.StatusCode ≥ 203
    · simp [GetCard, henc, Collector.Post, hnet, fetchedEnv, requestForm, NewCollector,
        Collector.OnHTML, Collector.OnResponse, Collector.OnError, onError, hstatus]
    by_cases hhtml : reply.isHTML = true
    swap
    · simp [GetCard, henc, Collector.Post, hnet, fetchedEnv, requestForm, NewCollector,
        Collector.OnHTML, Collector.OnResponse, Collector.OnError, onResponse, hstatus, hhtml]
    simp only [GetCard, henc, Collector.Post, hnet, NewCollector, Collector.OnHTML,
      Collector.OnResponse, Collector.OnError, Collector.handleOnHTML, List.nil_append,
      List.cons_append, List.foldl_cons, List.foldl_nil, List.foldlM_cons, List.foldlM_nil,
      hstatus, hhtml, if_true, if_false]
    rw [foldlM_setter onMembershipNumber (fun c s => { c with CardNo := s })
      (fun c => c.CardNo) (fun _ _ => rfl) (fun _ _ _ => rfl) (fun _ => rfl)]
    simp only [Option.bind_eq_bind, Option.some_bind]
    rw [foldlM_setter onAccountNumber (fun c s => { c with AccountNo := s })
      (fun c => c.AccountNo) (fun _ _ => rfl) (fun _ _ _ => rfl) (fun _ => rfl)]
    simp only [Option.bind_eq_bind, Option.some_bind]
    rw [foldlM_setter onCardValue (fun c s => { c with LoadsToDate := s })
      (fun c => c.LoadsToDate) (fun _ _ => rfl) (fun _ _ _ => rfl) (fun _ => rfl)]
    simp only [Option.bind_eq_bind, Option.some_bind]
    rw [foldlM_setter onPurchasesToDate (fun c s => { c with PurchasesToDate := s })
      (fun c => c.PurchasesToDate) (fun _ _ => rfl) (fun _ _ _ => rfl) (fun _ => rfl)]
    simp only [Option.bind_eq_bind, Option.some_bind]
    rw [foldlM_setter onAvailableBalance (fun c s => { c with AvailableBalance := s })
      (fun c => c.AvailableBalance) (fun _ _ => rfl) (fun _ _ _ => rfl) (fun _ => rfl)]
    simp only [Option.bind_eq_bind, Option.some_bind]
    rw [foldlM_setter onCardPurchasedDate (fun c s => { c with PurchasedDate := s })
      (fun c => c.PurchasedDate) (fun _ _ => rfl) (fun _ _ _ => rfl) (fun _ => rfl)]
    simp only [Option.bind_eq_bind, Option.some_bind]
    rw [foldlM_setter onCardExpiryDate (fun c s => { c with ExpiryDate := s })
      (fun c => c.ExpiryDate) (fun _ _ => rfl) (fun _ _ _ => rfl) (fun _ => rfl)]
    simp only [Option.bind_eq_bind, Option.some_bind]
    rw [foldlM_onErrorDescription _ _ { StatusCode := reply.StatusCode, Body := reply.decoded }
      rfl]
    simp only [Option.bind_eq_bind, Option.some_bind]
    rw [foldlM_onContentError _ _ _ rfl]
    simp only [Option.bind_eq_bind, Option.some_bind]
    rw [foldlM_onPointsStatement]
    simp only [Option.bind_eq_bind, Option.some_bind]
    simp only [fetchedEnv, pageCard, summaryText, pageTransactions, statementBodies, pageErr,
      pageStatus, authErrors, appErrors, requestForm, onResponse, List.nil_append, hstatus,
      hhtml, if_true, if_false]
    cases (reply.doc.Find (.descendant (.cls "content-error") (.tag "h3"))).getLast? <;>
      cases (reply.doc.Find (.simple (.id "htmltdErrorDescription"))).getLast? <;> rfl

/-- The closed form of `GetCard` when a page arrives and is parsed. -/
theorem GetCard_replied (c : Client) (cardNo pin : String) (rand : Nat → Nat)
    (net : Network) (b : Form) (ct : List Nat) (reply : Reply)
    (henc : encryptPinWithPublicKey rand pin c.publicKey = .ok ct)
    (hnet : net c.BaseURL (requestForm b cardNo ct) = .replied reply)
    (hstatus : reply.StatusCode < 203) (hhtml : reply.isHTML = true) :
    GetCard c cardNo pin rand net b =
      some { card := pageCard reply.doc
             response :=
               { Response := some
                   { StatusCode := pageStatus reply.doc reply.StatusCode
                     Body := reply.decoded } }
             err := pageErr reply.doc
             body := requestForm b cardNo ct
             posted := some (c.BaseURL, requestForm b cardNo ct) } := by
  have h : ¬ reply.StatusCode ≥ 203 := by omega
  rw [GetCard_ok c cardNo pin rand net b ct henc, hnet]
  simp [fetchedEnv, h, hhtml]

/-- The closed form of `GetCard` when the reply has a status code of 203 or more: the
reply is not parsed and the error is its status text. -/
theorem GetCard_http_error (c : Client) (cardNo pin : String) (rand : Nat → Nat)
    (net : Network) (b : Form) (ct : List Nat) (reply : Reply)
    (henc : encryptPinWithPublicKey rand pin c.publicKey = .ok ct)
    (hnet : net c.BaseURL (requestForm b cardNo ct) = .replied reply)
    (hstatus : 203 ≤ reply.StatusCode) :
    GetCard c cardNo pin rand net b =
      some { card := {}
             response :=
               { Response := some { StatusCode := reply.StatusCode, Body := reply.Body } }
             err := some (errors_New reply.StatusText)
             body := requestForm b cardNo ct
             posted := some (c.BaseURL, requestForm b cardNo ct) } := by
  have h : reply.StatusCode ≥ 203 := hstatus
  rw [GetCard_ok c cardNo pin rand net b ct henc, hnet]
  simp [fetchedEnv, h]

/-- The closed form of `GetCard` when the reply has a status code below 203 and a
content type that is not HTML: the reply is delivered and not parsed. -/
theorem GetCard_not_html (c : Client) (cardNo pin : String) (rand : Nat → Nat)
    (net : Network) (b : Form) (ct : List Nat) (reply : Reply)
    (henc : encryptPinWithPublicKey rand pin c.publicKey = .ok ct)
    (hnet : net c.BaseURL (requestForm b cardNo ct) = .replied reply)
    (hstatus : reply.StatusCode < 203) (hhtml : reply.isHTML = false) :
    GetCard c cardNo pin rand net b =
      some { card := {}
             response :=
               { Response := some { StatusCode := reply.StatusCode, Body := reply.decoded } }
             err := none
             body := requestForm b cardNo ct
             posted := some (c.BaseURL, requestForm b cardNo ct) } := by
  have h : ¬ reply.StatusCode ≥ 203 := by omega
  rw [GetCard_ok c cardNo pin rand net b ct henc, hnet]
  simp [fetchedEnv, h, hhtml]

/-- A parsed page comes from a reply with a status code below 203 and an HTML content
type. -/
theorem parsedPage_eq_some (f : Fetched) (doc : Document) (h : parsedPage f = some doc) :
    ∃ reply, f = .replied reply ∧ reply.StatusCode < 203 ∧ reply.isHTML = true ∧
      reply.doc = doc := by
  cases f with
  | refused => simp [parsedPage] at h
  | failed r e => simp [parsedPage] at h
  | replied reply =>
    simp only [parsedPage] at h
    split_ifs at h with hc
    cases h
    exact ⟨reply, rfl, hc.1, hc.2, rfl⟩

/-! ## The key of the package and the sample call -/

/-- When the key passes `checkPub` and the message fits, the encryption succeeds. -/
theorem EncryptPKCS1v15_ok (rand : Nat → Nat) (pub : PublicKey) (msg : List Nat) (n : Int)
    (hN : pub.N = some n) (hE2 : 2 ≤ pub.E) (hE : pub.E ≤ 2 ^ 31 - 1)
    (hlen : msg.length + 11 ≤ pub.Size) :
    EncryptPKCS1v15 rand pub msg =
      .ok (I2OSP pub.Size
        (OS2IP ([0, 2] ++ nonZeroRandomBytes rand (pub.Size - msg.length - 3) ++ [0] ++ msg)
          ^ pub.E.toNat % n.natAbs)) := by
  have h1 : ¬ pub.E < 2 := by omega
  have h2 : ¬ (2147483647 < pub.E) := by omega
  have h3 : ¬ msg.length + 11 > pub.Size := by omega
  simp [EncryptPKCS1v15, checkPub, hN, h1, h2, h3]

set_option maxRecDepth 100000 in
/-- The key `NewClient` builds from the constants of the package. -/
theorem makePublicKey_constants :
    makePublicKey modulus exp = ({ N := some (clientN : Int), E := 65537 }, none) := by
  rfl

theorem size_clientN : Nat.size clientN = 1024 := by
  apply le_antisymm
  · rw [Nat.size_le]; unfold clientN; norm_num
  · exact Nat.lt_size.mpr (by unfold clientN; norm_num)

theorem NewClient_publicKey : NewClient.publicKey = { N := some (clientN : Int), E := 65537 } := by
  simp [NewClient, makePublicKey_constants]

theorem Size_natCast (n : Nat) (e : Int) :
    PublicKey.Size { N := some (n : Int), E := e } = (Nat.size n + 7) / 8 := by
  simp [PublicKey.Size]

theorem NewClient_Size : NewClient.publicKey.Size = 128 := by
  rw [NewClient_publicKey, Size_natCast, size_clientN]

/-- With the key of the package the sample PIN is encrypted without error. -/
theorem encrypt_sample :
    ∃ ct, encryptPinWithPublicKey zeroRand samplePin NewClient.publicKey = .ok ct := by
  refine ⟨_, EncryptPKCS1v15_ok zeroRand NewClient.publicKey _ clientN ?_ ?_ ?_ ?_⟩
  · rw [NewClient_publicKey]
  · rw [NewClient_publicKey]; decide
  · rw [NewClient_publicKey]; decide
  · rw [NewClient_Size]; decide

/-! ## The form and the shared map -/

theorem requestForm_txtCardNumber (b : Form) (cardNo : String) (ct : List Nat) :
    requestForm b cardNo ct "txtCardNumber" = some cardNo := by
  simp [requestForm, Form.set]

theorem requestForm_hdnrequest (b : Form) (cardNo : String) (ct : List Nat) :
    requestForm b cardNo ct "hdnrequest" = some (Sprintf_x ct) := by
  simp [requestForm, Form.set]

theorem requestForm_other (b : Form) (cardNo : String) (ct : List Nat) (k : String)
    (h1 : k ≠ "txtCardNumber") (h2 : k ≠ "hdnrequest") : requestForm b cardNo ct k = b k := by
  simp [requestForm, Form.set, h1, h2]

/-- Calls of `GetCard` change the shared map at `txtCardNumber` and `hdnrequest` only. -/
theorem Reachable_other (b : Form) (hb : Reachable b) (k : String)
    (h1 : k ≠ "txtCardNumber") (h2 : k ≠ "hdnrequest") : b k = body k := by
  induction hb with
  | init => rfl
  | call b c cardNo pin rand net res _ hres ih =>
    cases henc : encryptPinWithPublicKey rand pin c.publicKey with
    | error e =>
      rw [GetCard_encrypt_error c cardNo pin rand net b e henc] at hres
      cases hres
      exact ih
    | ok ct =>
      rw [GetCard_ok c cardNo pin rand net b ct henc] at hres
      cases hres
      show requestForm b cardNo ct k = body k
      rw [requestForm_other b cardNo ct k h1 h2, ih]

/-- The session fields of `body` are the first five of `sevenFields`. -/
theorem body_fields (k v : String) (h1 : k ≠ "txtCardNumber") (h2 : k ≠ "hdnrequest")
    (cardNo hex : String) : body k = some v ↔ (k, v) ∈ sevenFields cardNo hex := by
  simp only [body, Form.set, Form.empty, sevenFields, randomNo, List.mem_cons, Prod.mk.injEq,
    List.mem_nil_iff, or_false, h1, h2, false_and]
  by_cases k1 : k = "hdnrandomnumber"
  · subst k1; simp [eq_comm]
  by_cases k2 : k = "cmdLogin"
  · subst k2; simp [eq_comm]
  by_cases k3 : k = "__EVENTVALIDATION"
  · subst k3; simp [eq_comm]
  by_cases k4 : k = "__VIEWSTATEGENERATOR"
  · subst k4; simp [eq_comm]
  by_cases k5 : k = "__VIEWSTATE"
  · subst k5; simp [eq_comm]
  simp [k1, k2, k3, k4, k5]

/-! ## The hexadecimal rendering -/

theorem I2OSP_lt (k x : Nat) : ∀ y ∈ I2OSP k x, y < 256 := by
  induction k generalizing x with
  | zero => simp [I2OSP]
  | succ k ih =>
    intro y hy
    simp only [I2OSP, List.mem_append, List.mem_singleton] at hy
    rcases hy with hy | hy
    · exact ih _ y hy
    · omega

theorem I2OSP_length (k x : Nat) : (I2OSP k x).length = k := by
  induction k generalizing x with
  | zero => rfl
  | succ k ih => simp [I2OSP, ih]

/-- The ciphertext has as many bytes as the modulus, each below 256. -/
theorem EncryptPKCS1v15_bytes (rand : Nat → Nat) (pub : PublicKey) (msg ct : List Nat)
    (h : EncryptPKCS1v15 rand pub msg = .ok ct) :
    ct.length = pub.Size ∧ ∀ y ∈ ct, y < 256 := by
  unfold EncryptPKCS1v15 at h
  split at h
  · cases h
  · simp only at h
    split at h
    · cases h
    · cases h
      exact ⟨I2OSP_length _ _, I2OSP_lt _ _⟩

theorem Sprintf_x_length (b : List Nat) : (Sprintf_x b).length = 2 * b.length := by
  unfold Sprintf_x
  show (b.flatMap fun x => [Nat.digitChar (x / 16), Nat.digitChar (x % 16)]).length = _
  induction b with
  | nil => rfl
  | cons x l ih =>
    simp only [List.flatMap_cons, List.length_append, ih, List.length_cons, List.length_nil]
    omega

theorem digitChar_lower : ∀ d, d < 16 → Nat.digitChar d ∈ "0123456789abcdef".data := by
  decide

theorem Sprintf_x_lower (b : List Nat) (hb : ∀ y ∈ b, y < 256) :
    ∀ ch ∈ (Sprintf_x b).data, ch ∈ "0123456789abcdef".data := by
  intro ch hch
  simp only [Sprintf_x, List.mem_flatMap, List.mem_cons, List.mem_nil_iff, or_false] at hch
  obtain ⟨y, hy, rfl | rfl⟩ := hch
  · exact digitChar_lower _ (by have := hb y hy; omega)
  · exact digitChar_lower _ (by omega)

/-! ## Claims on the encryption step and the form -/

/-- C7: when encrypting the PIN fails, `GetCard` returns that error unchanged with the
zero-value `Card` and the empty `Response`, never reaches `co.Post` (no request is
issued), and leaves the shared form-field map as it found it, so without the
`txtCardNumber` and `hdnrequest` entries of this call. -/
theorem GetCard_encryption_failure (c : Client) (cardNo pin : String) (rand : Nat → Nat)
    (net : Network) (b : Form) (err : GoError)
    (henc : encryptPinWithPublicKey rand pin c.publicKey = .error err) :
    ∃ res, GetCard c cardNo pin rand net b = some res ∧ res.err = some err ∧
      res.card = {} ∧ res.response = {} ∧ res.posted = none ∧ res.body = b :=
  ⟨_, GetCard_encrypt_error c cardNo pin rand net b err henc, rfl, rfl, rfl, rfl, rfl⟩

/-- The call of `TestInvalidPublicKey`: a client whose key is the zero value gets the
error `crypto/rsa: missing public modulus`, an empty card and an empty response, and
the map `body` stays as initialised. -/
theorem GetCard_encryption_failure_witness :
    ∃ res, GetCard { BaseURL := baseURL, publicKey := {} } sampleCardNo samplePin zeroRand
        (serving successPage) body = some res ∧
      res.err = some (errors_New "crypto/rsa: missing public modulus") ∧
      res.card = {} ∧ res.response = {} ∧ res.posted = none ∧ res.body = body :=
  GetCard_encryption_failure _ _ _ _ _ _ _ rfl

/-- C9, as stated, fails: after the sample call on the map `body` as initialised, the
map the package holds has a `txtCardNumber` entry, which it had not before. -/
theorem GetCard_changes_shared_map :
    ∃ res, GetCard NewClient sampleCardNo samplePin zeroRand (serving successPage) body
        = some res ∧
      res.body "txtCardNumber" = some sampleCardNo ∧ body "txtCardNumber" = none ∧
      res.body ≠ body := by
  obtain ⟨ct, henc⟩ := encrypt_sample
  refine ⟨_, GetCard_ok _ _ _ _ _ _ ct henc, requestForm_txtCardNumber body sampleCardNo ct,
    rfl, ?_⟩
  intro h
  have h1 : requestForm body sampleCardNo ct "txtCardNumber" = body "txtCardNumber" :=
    congrFun h "txtCardNumber"
  rw [requestForm_txtCardNumber] at h1
  exact absurd h1 (by decide)

/-- C9, amended: `GetCard` makes its two assignments in the shared map itself.  After a
call whose encryption succeeds the map holds the card number under `txtCardNumber` and
the hexadecimal ciphertext under `hdnrequest`, every other entry is as before the
call, and this map is the form handed to `co.Post`. -/
theorem GetCard_assigns_in_shared_map (c : Client) (cardNo pin : String) (rand : Nat → Nat)
    (net : Network) (b : Form) (ct : List Nat)
    (henc : encryptPinWithPublicKey rand pin c.publicKey = .ok ct) :
    ∃ res, GetCard c cardNo pin rand net b = some res ∧
      res.body "txtCardNumber" = some cardNo ∧
      res.body "hdnrequest" = some (Sprintf_x ct) ∧
      (∀ k, k ≠ "txtCardNumber" → k ≠ "hdnrequest" → res.body k = b k) ∧
      res.posted = some (c.BaseURL, res.body) :=
  ⟨_, GetCard_ok c cardNo pin rand net b ct henc, requestForm_txtCardNumber b cardNo ct,
    requestForm_hdnrequest b cardNo ct, fun k h1 h2 => requestForm_other b cardNo ct k h1 h2,
    rfl⟩

/-- The sample call on the map `body` as initialised. -/
theorem GetCard_assigns_in_shared_map_witness :
    ∃ ct res, encryptPinWithPublicKey zeroRand samplePin NewClient.publicKey = .ok ct ∧
      GetCard NewClient sampleCardNo samplePin zeroRand (serving successPage) body = some res ∧
      res.body "txtCardNumber" = some sampleCardNo ∧
      res.body "hdnrequest" = some (Sprintf_x ct) ∧
      (∀ k, k ≠ "txtCardNumber" → k ≠ "hdnrequest" → res.body k = body k) ∧
      res.posted = some (NewClient.BaseURL, res.body) := by
  obtain ⟨ct, henc⟩ := encrypt_sample
  obtain ⟨res, h⟩ := GetCard_assigns_in_shared_map NewClient sampleCardNo samplePin zeroRand
    (serving successPage) body ct henc
  exact ⟨ct, res, henc, h⟩

/-- C10: whatever calls of `GetCard` came before, a call whose encryption succeeds
hands to `co.Post` a form of exactly seven fields: the five session fields with their
constant values, `txtCardNumber` with the card number of this call and `hdnrequest`
with the rendering of the ciphertext of this call, which has two characters for each
byte, all of them lowercase hexadecimal digits. -/
theorem posted_form_has_seven_fields (b : Form) (hb : Reachable b) (c : Client)
    (cardNo pin : String) (rand : Nat → Nat) (net : Network) (ct : List Nat)
    (henc : encryptPinWithPublicKey rand pin c.publicKey = .ok ct) :
    ∃ res form, GetCard c cardNo pin rand net b = some res ∧
      res.posted = some (c.BaseURL, form) ∧
      (∀ k v, form k = some v ↔ (k, v) ∈ sevenFields cardNo (Sprintf_x ct)) ∧
      ((sevenFields cardNo (Sprintf_x ct)).map Prod.fst).Nodup ∧
      (sevenFields cardNo (Sprintf_x ct)).length = 7 ∧
      (Sprintf_x ct).length = 2 * ct.length ∧
      ∀ ch ∈ (Sprintf_x ct).data, ch ∈ "0123456789abcdef".data := by
  refine ⟨_, requestForm b cardNo ct, GetCard_ok c cardNo pin rand net b ct henc, rfl, ?_,
    by simp [sevenFields], rfl, Sprintf_x_length ct,
    Sprintf_x_lower ct (EncryptPKCS1v15_bytes _ _ _ _ henc).2⟩
  intro k v
  by_cases h1 : k = "txtCardNumber"
  · subst h1
    rw [requestForm_txtCardNumber]
    simp [sevenFields, eq_comm]
  by_cases h2 : k = "hdnrequest"
  · subst h2
    rw [requestForm_hdnrequest]
    simp [sevenFields, eq_comm]
  rw [requestForm_other b cardNo ct k h1 h2, Reachable_other b hb k h1 h2]
  exact body_fields k v h1 h2 cardNo (Sprintf_x ct)

/-- The sample call after an earlier call with another card number and PIN: the form
posted holds the seven fields of the sample call. -/
theorem posted_form_has_seven_fields_witness :
    ∃ earlier ct res form,
      GetCard NewClient "5029876543210" "4321" zeroRand (serving authErrorPage) body
        = some earlier ∧
      encryptPinWithPublicKey zeroRand samplePin NewClient.publicKey = .ok ct ∧
      GetCard NewClient sampleCardNo samplePin zeroRand (serving successPage) earlier.body
        = some res ∧
      res.posted = some (NewClient.BaseURL, form) ∧
      (∀ k v, form k = some v ↔ (k, v) ∈ sevenFields sampleCardNo (Sprintf_x ct)) := by
  obtain ⟨ct0, henc0⟩ : ∃ ct, encryptPinWithPublicKey zeroRand "4321" NewClient.publicKey
      = .ok ct := by
    refine ⟨_, EncryptPKCS1v15_ok zeroRand NewClient.publicKey _ clientN ?_ ?_ ?_ ?_⟩
    · rw [NewClient_publicKey]
    · rw [NewClient_publicKey]; decide
    · rw [NewClient_publicKey]; decide
    · rw [NewClient_Size]; decide
  have hearlier := GetCard_ok NewClient "5029876543210" "4321" zeroRand (serving authErrorPage)
    body ct0 henc0
  obtain ⟨ct, henc⟩ := encrypt_sample
  obtain ⟨res, form, h1, h2, h3, _⟩ := posted_form_has_seven_fields _
    (Reachable.call body NewClient "5029876543210" "4321" zeroRand (serving authErrorPage) _
      Reachable.init hearlier)
    NewClient sampleCardNo samplePin zeroRand (serving successPage) ct henc
  exact ⟨_, ct, res, form, hearlier, henc, h1, h2, h3⟩

/-! ## Claims on the page -/

theorem getLast?_ne_nil {α : Type} (l : List α) (h : l ≠ []) : ∃ a, l.getLast? = some a := by
  cases hl : l.getLast? with
  | none => exact absurd (List.getLast?_eq_none_iff.mp hl) h
  | some a => exact ⟨a, rfl⟩

/-- A page that carries no card data gives the zero-value card. -/
theorem pageCard_of_carriesNoCardData (doc : Document) (h : carriesNoCardData doc) :
    pageCard doc = {} := by
  obtain ⟨hs, ht⟩ := h
  have hsum : ∀ name ∈ summaryIds, summaryText doc name = "" := by
    intro name hname
    simp [summaryText, hs name hname]
  have htx : pageTransactions doc = [] := by
    unfold pageTransactions
    rw [List.flatMap_eq_nil_iff]
    intro tbody htbody
    rw [ht tbody htbody]
    rfl
  unfold pageCard
  rw [hsum _ (by simp [summaryIds]), hsum _ (by simp [summaryIds]), hsum _ (by simp [summaryIds]),
    hsum _ (by simp [summaryIds]), hsum _ (by simp [summaryIds]), hsum _ (by simp [summaryIds]),
    hsum _ (by simp [summaryIds]), htx]

/-- C1, as stated, fails: the page `summaryAndErrorPage` carries a card-number element
and the authentication-error element, and `GetCard` returns an error together with a
card whose `CardNo` is filled. -/
theorem GetCard_error_with_filled_card :
    ∃ res, GetCard NewClient sampleCardNo samplePin zeroRand (serving summaryAndErrorPage) body
        = some res ∧
      res.err = some (errors_New "Invalid card number or password.") ∧
      res.card.CardNo = "50211234567890" ∧ res.card ≠ {} := by
  obtain ⟨ct, henc⟩ := encrypt_sample
  refine ⟨_, GetCard_replied NewClient sampleCardNo samplePin zeroRand
    (serving summaryAndErrorPage) body ct (htmlReply 200 "OK" summaryAndErrorPage) henc rfl
    (by decide) rfl, ?_, ?_, ?_⟩
  · show pageErr summaryAndErrorPage = some (errors_New "Invalid card number or password.")
    decide
  · show (pageCard summaryAndErrorPage).CardNo = "50211234567890"
    decide
  · show pageCard summaryAndErrorPage ≠ {}
    decide

/-- C1, amended: whenever `GetCard` returns a non-nil error, the card it returns is
the zero-value card provided that no page was parsed (the encryption failed, or the
remote side did not answer with a page that colly parses) or that the parsed page
carries no summary element and no transaction row after the first row of a table body.
An error marker on the page does not clear what the summary elements of the page
filled. -/
theorem card_zero_on_error_without_card_data (c : Client) (cardNo pin : String)
    (rand : Nat → Nat) (net : Network) (b : Form) (res : Result)
    (hres : GetCard c cardNo pin rand net b = some res)
    (_herr : res.err ≠ none)
    (hpage : ∀ form doc, parsedPage (net c.BaseURL form) = some doc → carriesNoCardData doc) :
    res.card = {} := by
  cases henc : encryptPinWithPublicKey rand pin c.publicKey with
  | error e =>
    rw [GetCard_encrypt_error c cardNo pin rand net b e henc] at hres
    cases hres
    rfl
  | ok ct =>
    rw [GetCard_ok c cardNo pin rand net b ct henc] at hres
    cases hres
    show (fetchedEnv (net c.BaseURL (requestForm b cardNo ct))).card = {}
    cases hnet : net c.BaseURL (requestForm b cardNo ct) with
    | refused => rfl
    | failed r e => rfl
    | replied reply =>
      by_cases hstatus : reply.StatusCode ≥ 203
      · simp [fetchedEnv, hstatus]
      by_cases hhtml : reply.isHTML = true
      · have hparsed : parsedPage (net c.BaseURL (requestForm b cardNo ct)) = some reply.doc := by
          have h : reply.StatusCode < 203 := by omega
          simp [hnet, parsedPage, h, hhtml]
        simp only [fetchedEnv, hstatus, hhtml, if_true, if_false]
        exact pageCard_of_carriesNoCardData _ (hpage _ _ hparsed)
      · simp [fetchedEnv, hstatus, hhtml]

theorem authErrorPage_carriesNoCardData : carriesNoCardData authErrorPage := by
  constructor
  · intro name hname
    simp only [summaryIds, List.mem_cons, List.mem_nil_iff, or_false] at hname
    rcases hname with rfl | rfl | rfl | rfl | rfl | rfl | rfl <;> rfl
  · intro tbody htbody
    have h : statementBodies authErrorPage = [] := rfl
    rw [h] at htbody
    cases htbody

theorem parsedPage_serving (doc : Document) (URL : String) (form : Form) :
    parsedPage (serving doc URL form) = some doc := by
  simp [parsedPage, serving, htmlReply]

/-- The page of `TestGetCardWithIncorrectPin`: the error is the text of the page and
the card is the zero-value card. -/
theorem card_zero_on_error_without_card_data_witness :
    ∃ res, GetCard NewClient sampleCardNo samplePin zeroRand (serving authErrorPage) body
        = some res ∧
      res.err = some (errors_New "Invalid card number or password.") ∧ res.card = {} := by
  obtain ⟨ct, henc⟩ := encrypt_sample
  have hres := GetCard_replied NewClient sampleCardNo samplePin zeroRand
    (serving authErrorPage) body ct (htmlReply 200 "OK" authErrorPage) henc rfl (by decide) rfl
  have herr : pageErr authErrorPage = some (errors_New "Invalid card number or password.") := by
    decide
  refine ⟨_, hres, herr, ?_⟩
  refine card_zero_on_error_without_card_data NewClient sampleCardNo samplePin zeroRand
    (serving authErrorPage) body _ hres ?_ ?_
  · show pageErr authErrorPage ≠ none
    rw [herr]
    exact Option.some_ne_none _
  · intro form doc h
    rw [parsedPage_serving] at h
    cases h
    exact authErrorPage_carriesNoCardData

/-- C2, as stated, fails: the page `bothErrorsPage` contains the element
`#htmltdErrorDescription` and a `.content-error h3` heading, and `GetCard` returns the
application error with status 500, not the text of the element with status 401. -/
theorem GetCard_app_error_overrides_auth_error :
    ∃ res, GetCard NewClient sampleCardNo samplePin zeroRand (serving bothErrorsPage) body
        = some res ∧
      authErrors bothErrorsPage ≠ [] ∧
      res.err = some (errors_New "internal server error") ∧
      res.response = { Response := some { StatusCode := 500, Body := [] } } := by
  obtain ⟨ct, henc⟩ := encrypt_sample
  refine ⟨_, GetCard_replied NewClient sampleCardNo samplePin zeroRand
    (serving bothErrorsPage) body ct (htmlReply 200 "OK" bothErrorsPage) henc rfl
    (by decide) rfl, ?_, ?_, ?_⟩
  · exact fun h => absurd (congrArg List.length h) (by decide)
  · show pageErr bothErrorsPage = some (errors_New "internal server error")
    decide
  · show ({ Response := some { StatusCode := pageStatus bothErrorsPage 200, Body := [] } }
      : Response) = _
    decide

/-- C2, amended: for every reply whose page contains an element with id
`htmltdErrorDescription`, `e` being the last such element: when the status code is
below 203 and the content type is HTML, then, if the page has no `.content-error h3`
heading, `GetCard` returns an error whose message is the text of `e` and a response
whose status code is 401, whichever status below 203 the transport reported, and, if
the page also contains a `.content-error h3` heading, the callback of that heading runs
later and wins: the error is `internal server error` and the status code 500.  When
the status code is 203 or more the page is not parsed, the error is the status text
and the status code stays. -/
theorem auth_error_gives_401_unless_app_error (c : Client) (cardNo pin : String)
    (rand : Nat → Nat) (net : Network) (b : Form) (ct : List Nat) (reply : Reply) (e : Node)
    (henc : encryptPinWithPublicKey rand pin c.publicKey = .ok ct)
    (hnet : net c.BaseURL (requestForm b cardNo ct) = .replied reply)
    (he : (authErrors reply.doc).getLast? = some e) :
    ∃ res, GetCard c cardNo pin rand net b = some res ∧
      (reply.StatusCode < 203 → reply.isHTML = true →
        (appErrors reply.doc = [] →
          res.err = some (errors_New e.Text) ∧
          res.response = { Response := some { StatusCode := 401, Body := reply.decoded } }) ∧
        (appErrors reply.doc ≠ [] →
          res.err = some (errors_New "internal server error") ∧
          res.response = { Response := some { StatusCode := 500, Body := reply.decoded } })) ∧
      (203 ≤ reply.StatusCode →
        res.err = some (errors_New reply.StatusText) ∧
        res.response =
          { Response := some { StatusCode := reply.StatusCode, Body := reply.Body } }) := by
  refine ⟨_, GetCard_ok c cardNo pin rand net b ct henc, ?_, ?_⟩
  · intro hstatus hhtml
    have h : ¬ reply.StatusCode ≥ 203 := by omega
    constructor
    · intro happ
      simp [hnet, fetchedEnv, h, hhtml, pageErr, pageStatus, happ, he, StatusUnauthorized]
    · intro happ
      obtain ⟨a, ha⟩ := getLast?_ne_nil _ happ
      simp [hnet, fetchedEnv, h, hhtml, pageErr, pageStatus, ha, StatusInternalServerError]
  · intro hstatus
    have h : reply.StatusCode ≥ 203 := hstatus
    simp [hnet, fetchedEnv, h]

/-- The page of `TestGetCardWithIncorrectPin`, served with status 200: the error is the
text of the page and the status becomes 401. -/
theorem auth_error_gives_401_unless_app_error_witness :
    ∃ res, GetCard NewClient sampleCardNo samplePin zeroRand (serving authErrorPage) body
        = some res ∧
      res.err = some (errors_New "Invalid card number or password.") ∧
      res.response = { Response := some { StatusCode := 401, Body := [] } } := by
  obtain ⟨ct, henc⟩ := encrypt_sample
  obtain ⟨res, hres, h1, _⟩ := auth_error_gives_401_unless_app_error NewClient sampleCardNo
    samplePin zeroRand (serving authErrorPage) body ct (htmlReply 200 "OK" authErrorPage)
    authErrorCell henc rfl rfl
  exact ⟨res, hres, (h1 (by decide) rfl).1 rfl⟩

/-- C3, as stated, fails: the page `appErrorPage`, with the application-error heading
and no authentication-error element, served with status 404 is not parsed: `GetCard`
returns the error `Not Found` and a response whose status code is 404. -/
theorem GetCard_app_error_page_not_found :
    ∃ res, GetCard NewClient sampleCardNo samplePin zeroRand (servingNotFound appErrorPage) body
        = some res ∧
      appErrors appErrorPage ≠ [] ∧ authErrors appErrorPage = [] ∧
      res.err = some (errors_New "Not Found") ∧
      res.response = { Response := some { StatusCode := 404, Body := [] } } := by
  obtain ⟨ct, henc⟩ := encrypt_sample
  exact ⟨_, GetCard_http_error NewClient sampleCardNo samplePin zeroRand
    (servingNotFound appErrorPage) body ct (htmlReply 404 "Not Found" appErrorPage) henc rfl
    (by decide), fun h => absurd (congrArg List.length h) (by decide), rfl, rfl, rfl⟩

/-- C3, amended: for every reply whose page contains an `h3` below an element of class
`content-error` and no authentication-error element: when the status code is below 203
and the content type is HTML, `GetCard` returns the error `internal server error` and
a response whose status code is 500, whatever the text of the heading and whichever
status below 203 the transport reported; when the status code is 203 or more the page
is not parsed, the error is the status text and the status code stays. -/
theorem app_error_gives_500_when_parsed (c : Client) (cardNo pin : String)
    (rand : Nat → Nat) (net : Network) (b : Form) (ct : List Nat) (reply : Reply)
    (henc : encryptPinWithPublicKey rand pin c.publicKey = .ok ct)
    (hnet : net c.BaseURL (requestForm b cardNo ct) = .replied reply)
    (happ : appErrors reply.doc ≠ []) (_hauth : authErrors reply.doc = []) :
    ∃ res, GetCard c cardNo pin rand net b = some res ∧
      (reply.StatusCode < 203 → reply.isHTML = true →
        res.err = some (errors_New "internal server error") ∧
        res.response = { Response := some { StatusCode := 500, Body := reply.decoded } }) ∧
      (203 ≤ reply.StatusCode →
        res.err = some (errors_New reply.StatusText) ∧
        res.response =
          { Response := some { StatusCode := reply.StatusCode, Body := reply.Body } }) := by
  obtain ⟨a, ha⟩ := getLast?_ne_nil _ happ
  refine ⟨_, GetCard_ok c cardNo pin rand net b ct henc, ?_, ?_⟩
  · intro hstatus hhtml
    have h : ¬ reply.StatusCode ≥ 203 := by omega
    simp [hnet, fetchedEnv, h, hhtml, pageErr, pageStatus, ha, StatusInternalServerError]
  · intro hstatus
    have h : reply.StatusCode ≥ 203 := hstatus
    simp [hnet, fetchedEnv, h]

/-- The page of `TestGetCardInternalError`, served with status 200. -/
theorem app_error_gives_500_when_parsed_witness :
    ∃ res, GetCard NewClient sampleCardNo samplePin zeroRand (serving appErrorPage) body
        = some res ∧
      res.err = some (errors_New "internal server error") ∧
      res.response = { Response := some { StatusCode := 500, Body := [] } } := by
  obtain ⟨ct, henc⟩ := encrypt_sample
  obtain ⟨res, hres, h1, _⟩ := app_error_gives_500_when_parsed NewClient sampleCardNo samplePin
    zeroRand (serving appErrorPage) body ct (htmlReply 200 "OK" appErrorPage) henc rfl
    (fun h => absurd (congrArg List.length h) (by decide)) rfl
  exact ⟨res, hres, h1 (by decide) rfl⟩

/-- C4, as stated, fails: the page `successPage` contains neither error marker, and
served with status 404 (a request that completes without transport error) it is not
parsed: `GetCard` returns the error `Not Found` and the zero-value card. -/
theorem GetCard_not_found_page_is_error :
    ∃ res, GetCard NewClient sampleCardNo samplePin zeroRand (servingNotFound successPage) body
        = some res ∧
      authErrors successPage = [] ∧ appErrors successPage = [] ∧
      res.err = some (errors_New "Not Found") ∧ res.card = {} := by
  obtain ⟨ct, henc⟩ := encrypt_sample
  exact ⟨_, GetCard_http_error NewClient sampleCardNo samplePin zeroRand
    (servingNotFound successPage) body ct (htmlReply 404 "Not Found" successPage) henc rfl
    (by decide), rfl, rfl, rfl, rfl⟩

/-- C4, amended: for every reply whose page contains neither the authentication-error
element nor the application-error heading: when the status code is below 203,
`GetCard` returns a nil error and a response with the status code of the transport and
the body as colly delivers it (decoded to UTF-8 when the content type names another
charset), and, when the content type is HTML, a card in which each of the seven
summary fields is the trimmed text of the element with the corresponding identifier
(the last one, should the page repeat the identifier) or the empty string when the
page has none; when the content type is not HTML the page is not parsed and the card is
the zero-value card.  When the status code is 203 or more the page is not parsed:
the error is the status text, the response is the reply as read and the card is the
zero-value card. -/
theorem success_page_fills_summary (c : Client) (cardNo pin : String)
    (rand : Nat → Nat) (net : Network) (b : Form) (ct : List Nat) (reply : Reply)
    (henc : encryptPinWithPublicKey rand pin c.publicKey = .ok ct)
    (hnet : net c.BaseURL (requestForm b cardNo ct) = .replied reply)
    (hauth : authErrors reply.doc = []) (happ : appErrors reply.doc = []) :
    ∃ res, GetCard c cardNo pin rand net b = some res ∧
      (reply.StatusCode < 203 →
        res.err = none ∧
        res.response =
          { Response := some { StatusCode := reply.StatusCode, Body := reply.decoded } } ∧
        (reply.isHTML = true →
          res.card.CardNo = summaryText reply.doc "ctl00_DefaultContent_lblMembershipNumber" ∧
          res.card.AccountNo = summaryText reply.doc "ctl00_DefaultContent_lblAccountNumber" ∧
          res.card.LoadsToDate = summaryText reply.doc "ctl00_DefaultContent_lblcardvalue" ∧
          res.card.PurchasesToDate =
            summaryText reply.doc "ctl00_DefaultContent_lblpurchasestodate" ∧
          res.card.AvailableBalance =
            summaryText reply.doc "ctl00_DefaultContent_lblavailablebalance" ∧
          res.card.PurchasedDate =
            summaryText reply.doc "ctl00_DefaultContent_lblCardPurchasedDate" ∧
          res.card.ExpiryDate = summaryText reply.doc "ctl00_DefaultContent_lblCardExpiryDate") ∧
        (reply.isHTML = false → res.card = {})) ∧
      (203 ≤ reply.StatusCode →
        res.err = some (errors_New reply.StatusText) ∧
        res.response =
          { Response := some { StatusCode := reply.StatusCode, Body := reply.Body } } ∧
        res.card = {}) := by
  by_cases hstatus : reply.StatusCode < 203
  · cases hhtml : reply.isHTML with
    | false =>
      refine ⟨_, GetCard_not_html c cardNo pin rand net b ct reply henc hnet hstatus hhtml,
        fun _ => ⟨rfl, rfl, fun h => Bool.noConfusion h, fun _ => rfl⟩, fun h => by omega⟩
    | true =>
      refine ⟨_, GetCard_replied c cardNo pin rand net b ct reply henc hnet hstatus hhtml,
        fun _ => ⟨?_, ?_, fun _ => ⟨rfl, rfl, rfl, rfl, rfl, rfl, rfl⟩,
          fun h => Bool.noConfusion h⟩,
        fun h => by omega⟩
      · simp [pageErr, hauth, happ]
      · simp [pageStatus, hauth, happ]
  · refine ⟨_, GetCard_http_error c cardNo pin rand net b ct reply henc hnet (by omega),
      fun h => absurd h hstatus, fun _ => ⟨rfl, rfl, rfl⟩⟩

/-- The page of `TestGetCard`: no error, status 200 and the seven values the test
expects. -/
theorem success_page_fills_summary_witness :
    ∃ res, GetCard NewClient sampleCardNo samplePin zeroRand (serving successPage) body
        = some res ∧
      res.err = none ∧
      res.response = { Response := some { StatusCode := 200, Body := [] } } ∧
      res.card.CardNo = "50211234567890" ∧
      res.card.AccountNo = "000000000" ∧
      res.card.LoadsToDate = "$100.00" ∧
      res.card.PurchasesToDate = "-$54.32" ∧
      res.card.AvailableBalance = "$12.34" ∧
      res.card.PurchasedDate = "1 Jan 2018" ∧
      res.card.ExpiryDate = "1 Jan 2021" := by
  obtain ⟨ct, henc⟩ := encrypt_sample
  obtain ⟨res, hres, hlow, _⟩ :=
    success_page_fills_summary NewClient sampleCardNo samplePin zeroRand (serving successPage)
      body ct (htmlReply 200 "OK" successPage) henc rfl rfl rfl
  obtain ⟨h1, h2, hfields, _⟩ := hlow (by decide)
  obtain ⟨h3, h4, h5, h6, h7, h8, h9⟩ := hfields rfl
  refine ⟨res, hres, h1, h2, ?_, ?_, ?_, ?_, ?_, ?_, ?_⟩
  · rw [h3]; decide
  · rw [h4]; decide
  · rw [h5]; decide
  · rw [h6]; decide
  · rw [h7]; decide
  · rw [h8]; decide
  · rw [h9]; decide

/-- C5: for every response page that is parsed and has one `#dgPointsStatement tbody`,
whose rows are `rows`, the card has one transaction for each row but the first, in the
order of the rows: entry `k` is built from row `k + 1`, and its `Date`, `Details`,
`Description`, `Amount` and `Balance` are the trimmed texts of the first to fifth cell
of that row (`rowTransaction`).  When the page has no such table body the card has no
transaction. -/
theorem statement_rows_become_transactions (c : Client) (cardNo pin : String)
    (rand : Nat → Nat) (net : Network) (b : Form) (ct : List Nat) (doc : Document)
    (henc : encryptPinWithPublicKey rand pin c.publicKey = .ok ct)
    (hpage : parsedPage (net c.BaseURL (requestForm b cardNo ct)) = some doc) :
    ∃ res, GetCard c cardNo pin rand net b = some res ∧
      (∀ tbody, statementBodies doc = [tbody] →
        res.card.Transactions.length = (tbody.Find (.tag "tr")).length - 1 ∧
        (∀ k, k + 1 < (tbody.Find (.tag "tr")).length →
          res.card.Transactions[k]? = ((tbody.Find (.tag "tr"))[k + 1]?).map rowTransaction) ∧
        res.card.Transactions = (tbody.Find (.tag "tr")).tail.map rowTransaction) ∧
      (statementBodies doc = [] → res.card.Transactions = []) := by
  obtain ⟨reply, hnet, hstatus, hhtml, rfl⟩ := parsedPage_eq_some _ _ hpage
  refine ⟨_, GetCard_replied c cardNo pin rand net b ct reply henc hnet hstatus hhtml, ?_, ?_⟩
  · intro tbody htbody
    have htx : pageTransactions reply.doc = (tbody.Find (.tag "tr")).tail.map rowTransaction := by
      simp [pageTransactions, htbody]
    refine ⟨?_, ?_, htx⟩
    · show (pageTransactions reply.doc).length = _
      rw [htx]
      simp
    · intro k _
      show (pageTransactions reply.doc)[k]? = _
      rw [htx]
      simp [List.getElem?_map]
  · intro h
    show pageTransactions reply.doc = []
    simp [pageTransactions, h]

/-- The page of `TestGetCard`: the title row is dropped and the two transactions the
test expects are returned in the order of the rows. -/
theorem statement_rows_become_transactions_witness :
    ∃ res, GetCard NewClient sampleCardNo samplePin zeroRand (serving successPage) body
        = some res ∧
      res.card.Transactions =
        [ { Date := "1 Jan 2018 12:04:45 PM", Details := "Store Address",
            Description := "Refund - Store Address", Amount := "$100.00", Balance := "$100.00" },
          { Date := "2 Jan 2018 07:50:53 PM", Details := "Store A",
            Description := "Purchase - Store A", Amount := "$12.34-", Balance := "$56.78" } ] := by
  obtain ⟨ct, henc⟩ := encrypt_sample
  obtain ⟨res, hres, h1, _⟩ :=
    statement_rows_become_transactions NewClient sampleCardNo samplePin zeroRand
      (serving successPage) body ct successPage henc (parsedPage_serving _ _ _)
  refine ⟨res, hres, ?_⟩
  rw [(h1 sampleStatementBody rfl).2.2]
  decide

/-! ## Parsing the key -/

theorem digitVal_hex (c : Char) (d : Nat) :
    (digitVal c = some d ∧ d < 16) ↔ (isHexChar c = true ∧ d = hexCharValue c) := by
  unfold digitVal isHexChar hexCharValue
  simp only [Bool.or_eq_true, Bool.and_eq_true, decide_eq_true_eq]
  constructor
  · rintro ⟨h, hd⟩
    split_ifs at h <;> simp at h <;> split_ifs <;> omega
  · rintro ⟨h, hd⟩
    split_ifs at hd <;> split_ifs <;> simp <;> omega

theorem hexDigitsValue_nil : hexDigitsValue [] = 0 := by
  simp [hexDigitsValue]

theorem hexDigitsValue_concat (l : List Char) (c : Char) :
    hexDigitsValue (l ++ [c]) = hexDigitsValue l * 16 + hexCharValue c := by
  simp [hexDigitsValue, Nat.ofDigits_cons]
  ring

/-- The digit loop of `SetString` succeeds exactly on hexadecimal digits, with their
value. -/
theorem foldlM_scan (l : List Char) (n : Nat) :
    l.foldlM (fun acc c =>
      match digitVal c with
      | some d => if d < 16 then some (acc * 16 + d) else none
      | none => none) 0 = some n ↔
    (∀ c ∈ l, isHexChar c = true) ∧ n = hexDigitsValue l := by
  induction l using List.reverseRecOn generalizing n with
  | nil =>
    rw [hexDigitsValue_nil]
    constructor
    · intro h
      cases h
      exact ⟨by simp, rfl⟩
    · rintro ⟨_, rfl⟩
      rfl
  | append_singleton l c ih =>
    rw [List.foldlM_append, hexDigitsValue_concat]
    simp only [List.foldlM_cons, List.foldlM_nil, Option.bind_eq_bind, Option.bind_eq_some,
      Option.pure_def, List.mem_append, List.mem_singleton]
    constructor
    · rintro ⟨m, hm, hstep⟩
      obtain ⟨hl, rfl⟩ := (ih m).mp hm
      cases hd : digitVal c with
      | none => simp [hd] at hstep
      | some d =>
        simp only [hd] at hstep
        by_cases h16 : d < 16
        · simp only [h16, if_true, Option.bind_some, Option.some.injEq] at hstep
          obtain ⟨hc, hv⟩ := (digitVal_hex c d).mp ⟨hd, h16⟩
          refine ⟨?_, ?_⟩
          · rintro x (hx | rfl)
            · exact hl x hx
            · exact hc
          · obtain ⟨a, ha, rfl⟩ := hstep
            rw [← ha, hv]
        · simp [h16] at hstep
    · rintro ⟨hall, hn⟩
      refine ⟨hexDigitsValue l, (ih _).mpr ⟨fun x hx => hall x (Or.inl hx), rfl⟩, ?_⟩
      obtain ⟨hd, h16⟩ := (digitVal_hex c (hexCharValue c)).mpr ⟨hall c (Or.inr rfl), rfl⟩
      simp [hd, h16, hn]

theorem scanDigits_16 (cs : List Char) (n : Nat) :
    scanDigits 16 cs = some n ↔
      (cs ≠ [] ∧ ∀ c ∈ cs, isHexChar c = true) ∧ n = hexDigitsValue cs := by
  unfold scanDigits
  by_cases h : cs = []
  · simp [h]
  · simp only [h, if_false, ne_eq, not_false_eq_true, true_and]
    exact foldlM_scan cs n

theorem SetString_plus (s : String) (rest : List Char) (hs : s.data = '+' :: rest) :
    SetString s 16 = (scanDigits 16 rest).map fun (n : Nat) => (n : Int) := by
  simp only [SetString, hs]

theorem SetString_minus (s : String) (rest : List Char) (hs : s.data = '-' :: rest) :
    SetString s 16 = (scanDigits 16 rest).map fun (n : Nat) => -(n : Int) := by
  simp only [SetString, hs]

theorem SetString_plain (s : String) (h1 : s.data.head? ≠ some '+')
    (h2 : s.data.head? ≠ some '-') :
    SetString s 16 = (scanDigits 16 s.data).map fun (n : Nat) => (n : Int) := by
  unfold SetString
  split
  · rename_i rest hs; simp [hs] at h1
  · rename_i rest hs; simp [hs] at h2
  · rfl

theorem unsigned_plain (s : String) (h1 : s.data.head? ≠ some '+')
    (h2 : s.data.head? ≠ some '-') : unsigned s = s.data := by
  unfold unsigned
  split
  · rename_i rest hs; simp [hs] at h1
  · rename_i rest hs; simp [hs] at h2
  · rfl

theorem head?_eq_some_cons {α : Type} (l : List α) (a : α) (h : l.head? = some a) :
    ∃ rest, l = a :: rest := by
  cases l with
  | nil => simp at h
  | cons b rest =>
    simp at h
    exact ⟨rest, by rw [h]⟩

/-- `SetString` in base 16 accepts exactly the hexadecimal integers, with their value. -/
theorem SetString_16 (s : String) (n : Int) :
    SetString s 16 = some n ↔ isHexInteger s ∧ n = hexValue s := by
  by_cases hp : s.data.head? = some '+'
  · obtain ⟨rest, hs⟩ := head?_eq_some_cons _ _ hp
    have hu : unsigned s = rest := by simp only [unsigned, hs]
    have hv : hexValue s = (hexDigitsValue rest : Int) := by
      simp [hexValue, hs, hu]
    rw [SetString_plus s rest hs, Option.map_eq_some', isHexInteger, hu, hv]
    constructor
    · rintro ⟨m, hm, rfl⟩
      obtain ⟨h, rfl⟩ := (scanDigits_16 rest m).mp hm
      exact ⟨h, rfl⟩
    · rintro ⟨h, rfl⟩
      exact ⟨_, (scanDigits_16 rest _).mpr ⟨h, rfl⟩, rfl⟩
  by_cases hm : s.data.head? = some '-'
  · obtain ⟨rest, hs⟩ := head?_eq_some_cons _ _ hm
    have hu : unsigned s = rest := by simp only [unsigned, hs]
    have hv : hexValue s = -(hexDigitsValue rest : Int) := by
      simp [hexValue, hs, hu]
    rw [SetString_minus s rest hs, Option.map_eq_some', isHexInteger, hu, hv]
    constructor
    · rintro ⟨m, hm, rfl⟩
      obtain ⟨h, rfl⟩ := (scanDigits_16 rest m).mp hm
      exact ⟨h, rfl⟩
    · rintro ⟨h, rfl⟩
      exact ⟨_, (scanDigits_16 rest _).mpr ⟨h, rfl⟩, rfl⟩
  · have hu := unsigned_plain s hp hm
    have hv : hexValue s = (hexDigitsValue s.data : Int) := by
      simp [hexValue, hm, hu]
    rw [SetString_plain s hp hm, Option.map_eq_some', isHexInteger, hu, hv]
    constructor
    · rintro ⟨m, hm, rfl⟩
      obtain ⟨h, rfl⟩ := (scanDigits_16 _ m).mp hm
      exact ⟨h, rfl⟩
    · rintro ⟨h, rfl⟩
      exact ⟨_, (scanDigits_16 _ _).mpr ⟨h, rfl⟩, rfl⟩

/-- One step of the digit loop of `ParseUint` in base 16 on 64 bits: it succeeds when
the character is a hexadecimal digit and the new value fits in 64 bits. -/
theorem parseUintStep_ok (acc : Except NumErrorKind Nat) (c : Char) (n : Nat) :
    parseUintStep 16 (2 ^ 64 - 1) acc c = .ok n ↔
      ∃ m, acc = .ok m ∧ isHexChar c = true ∧ m * 16 + hexCharValue c < 2 ^ 64 ∧
        n = m * 16 + hexCharValue c := by
  cases acc with
  | error e => simp [parseUintStep]
  | ok m =>
    simp only [parseUintStep, Except.ok.injEq, exists_eq_left']
    cases hd : digitVal c with
    | none =>
      simp only [false_iff, reduceCtorEq]
      rintro ⟨hc, _, _⟩
      have := (digitVal_hex c (hexCharValue c)).mpr ⟨hc, rfl⟩
      rw [hd] at this
      simp at this
    | some d =>
      by_cases h16 : d < 16
      · obtain ⟨hc, hv⟩ := (digitVal_hex c d).mp ⟨hd, h16⟩
        subst hv
        have h1 : ¬ hexCharValue c ≥ 16 := by omega
        simp only [h1, if_false, hc, true_and]
        norm_num
        split_ifs with h2 h3
        · simp only [reduceCtorEq, false_iff]
          rintro ⟨h, _⟩
          omega
        · simp only [reduceCtorEq, false_iff]
          rintro ⟨h, _⟩
          omega
        · simp only [Except.ok.injEq]
          constructor
          · intro h
            exact ⟨by omega, h.symm⟩
          · rintro ⟨_, h⟩
            exact h.symm
      · have h1 : d ≥ 16 := by omega
        simp only [h1, if_true, reduceCtorEq, false_iff]
        rintro ⟨hc, _, _⟩
        have := (digitVal_hex c (hexCharValue c)).mpr ⟨hc, rfl⟩
        rw [hd] at this
        simp only [Option.some.injEq] at this
        omega

/-- The digit loop of `ParseUint` in base 16 on 64 bits succeeds exactly on
hexadecimal digits whose value fits in 64 bits. -/
theorem foldl_parseUintStep (l : List Char) (n : Nat) :
    l.foldl (parseUintStep 16 (2 ^ 64 - 1)) (.ok 0) = .ok n ↔
      (∀ c ∈ l, isHexChar c = true) ∧ n = hexDigitsValue l ∧ n < 2 ^ 64 := by
  induction l using List.reverseRecOn generalizing n with
  | nil =>
    rw [hexDigitsValue_nil]
    simp only [List.foldl_nil, Except.ok.injEq, List.not_mem_nil, false_implies, implies_true,
      true_and]
    constructor
    · rintro rfl
      exact ⟨rfl, by norm_num⟩
    · rintro ⟨rfl, _⟩
      rfl
  | append_singleton l c ih =>
    rw [List.foldl_append, List.foldl_cons, List.foldl_nil, parseUintStep_ok,
      hexDigitsValue_concat]
    constructor
    · rintro ⟨m, hm, hc, hlt, rfl⟩
      obtain ⟨hl, rfl, _⟩ := (ih m).mp hm
      refine ⟨?_, rfl, hlt⟩
      intro x hx
      rcases List.mem_append.mp hx with hx | hx
      · exact hl x hx
      · rw [List.mem_singleton.mp hx]
        exact hc
    · rintro ⟨hall, rfl, hlt⟩
      refine ⟨hexDigitsValue l, (ih _).mpr ⟨fun x hx => hall x (List.mem_append_left _ hx), rfl,
        by omega⟩, hall c (by simp), hlt, rfl⟩

/-- The characters `ParseInt` hands to `ParseUint` are those after the sign. -/
theorem ParseInt_rest (s : String) :
    (if s.data.head? = some '+' ∨ s.data.head? = some '-' then s.data.tail else s.data)
      = unsigned s := by
  by_cases hp : s.data.head? = some '+'
  · obtain ⟨rest, hs⟩ := head?_eq_some_cons _ _ hp
    simp [unsigned, hs]
  by_cases hm : s.data.head? = some '-'
  · obtain ⟨rest, hs⟩ := head?_eq_some_cons _ _ hm
    simp [unsigned, hs]
  · rw [unsigned_plain s hp hm]
    simp [hp, hm]

/-- An error of `ParseInt` is a `NumError` of `ParseInt` on the string itself. -/
theorem ParseInt_error (s : String) (err : GoError) (h : ParseInt s 16 0 = .error err) :
    err = .numError "ParseInt" s .ErrSyntax ∨ err = .numError "ParseInt" s .ErrRange := by
  unfold ParseInt at h
  by_cases hs : s.data = []
  · simp only [hs, if_true, Except.error.injEq] at h
    exact Or.inl h.symm
  · simp only [hs, if_false] at h
    split at h
    · cases h; exact Or.inl rfl
    · cases h; exact Or.inr rfl
    · split_ifs at h <;> cases h <;> exact Or.inr rfl

/-- `ParseInt` in base 16 with bit size 0 accepts exactly the hexadecimal integers
whose value is a 64-bit signed integer, and returns that value. -/
theorem ParseInt_ok_iff (s : String) (e : Int) :
    ParseInt s 16 0 = .ok e ↔
      isHexInteger s ∧ e = hexValue s ∧ -(2 ^ 63) ≤ e ∧ e < 2 ^ 63 := by
  unfold ParseInt
  by_cases hs : s.data = []
  · simp only [hs, if_true, reduceCtorEq, false_iff]
    rintro ⟨⟨h, _⟩, _⟩
    exact h (by simp [unsigned, hs])
  simp only [hs, if_false, ParseInt_rest]
  unfold ParseUint
  by_cases hu : unsigned s = []
  · simp only [hu, if_true, reduceCtorEq, false_iff]
    rintro ⟨⟨h, _⟩, _⟩
    exact h hu
  simp only [hu, if_false, IntSize]
  norm_num
  cases hf : List.foldl (parseUintStep 16 18446744073709551615) (Except.ok 0) (unsigned s) with
  | error k =>
    have hno : ¬ ((∀ c ∈ unsigned s, isHexChar c = true) ∧ hexDigitsValue (unsigned s) < 2 ^ 64) := by
      rintro ⟨h1, h2⟩
      have := (foldl_parseUintStep (unsigned s) _).mpr ⟨h1, rfl, h2⟩
      norm_num at this
      rw [hf] at this
      cases this
    have hfalse : ¬ (isHexInteger s ∧ e = hexValue s ∧ -9223372036854775808 ≤ e ∧
        e < 9223372036854775808) := by
      rintro ⟨⟨_, h1⟩, h2, h3, h4⟩
      apply hno
      refine ⟨h1, ?_⟩
      unfold hexValue at h2
      split_ifs at h2 <;> omega
    cases k <;> simp [hfalse]
  | ok un =>
    have hfold := (foldl_parseUintStep (unsigned s) un).mp (by norm_num; exact hf)
    obtain ⟨hall, hval, _⟩ := hfold
    have hhex : isHexInteger s := ⟨hu, hall⟩
    simp only [hhex, true_and]
    unfold hexValue
    rw [← hval]
    by_cases hneg : s.data.head? = some '-'
    · simp only [hneg, true_and, not_true_eq_false, false_and, if_false, if_true]
      split_ifs with h1
      · simp only [reduceCtorEq, false_iff]
        rintro ⟨rfl, h2, _⟩
        omega
      · simp only [Except.ok.injEq]
        constructor
        · rintro rfl
          exact ⟨rfl, by omega, by omega⟩
        · rintro ⟨rfl, _⟩
          rfl
    · simp only [hneg, false_and, not_false_eq_true, true_and, if_false]
      split_ifs with h1
      · simp only [reduceCtorEq, false_iff]
        rintro ⟨rfl, _, h2⟩
        omega
      · simp only [Except.ok.injEq]
        constructor
        · rintro rfl
          exact ⟨rfl, by omega, by omega⟩
        · rintro ⟨rfl, _⟩
          rfl

/-- C8: `makePublicKey` returns an error exactly when `modulus` is not a hexadecimal
integer or `exp` is not parsed by `ParseInt` in base 16.  In the first case, also when
`exp` is bad as well, the error is `invalid modulus`; in the second it is the error of
`ParseInt` itself; in both the key is the zero value.  Otherwise there is no error and
the key holds the value of `modulus` read in base 16 as `N` and the value of `exp`
read in base 16 as `E`.  `ParseInt` parses `exp` exactly when it is a hexadecimal
integer whose value is a 64-bit signed integer. -/
theorem makePublicKey_errors (modulus exp : String) :
    ((makePublicKey modulus exp).2 ≠ none ↔
      ¬ isHexInteger modulus ∨ ∀ e, ParseInt exp 16 0 ≠ .ok e) ∧
    (¬ isHexInteger modulus →
      makePublicKey modulus exp = ({}, some (errors_New "invalid modulus"))) ∧
    (∀ err, isHexInteger modulus → ParseInt exp 16 0 = .error err →
      makePublicKey modulus exp = ({}, some err)) ∧
    (∀ e, isHexInteger modulus → ParseInt exp 16 0 = .ok e →
      makePublicKey modulus exp =
        ({ N := some (hexValue modulus), E := hexValue exp }, none)) ∧
    (∀ e, ParseInt exp 16 0 = .ok e ↔
      isHexInteger exp ∧ e = hexValue exp ∧ -(2 ^ 63) ≤ e ∧ e < 2 ^ 63) := by
  have hmod : ¬ isHexInteger modulus → SetString modulus 16 = none := by
    intro h
    cases hs : SetString modulus 16 with
    | none => rfl
    | some n => exact absurd ((SetString_16 modulus n).mp hs).1 h
  have hmod2 : isHexInteger modulus → SetString modulus 16 = some (hexValue modulus) :=
    fun h => (SetString_16 modulus _).mpr ⟨h, rfl⟩
  refine ⟨?_, ?_, ?_, ?_, ParseInt_ok_iff exp⟩
  · by_cases h : isHexInteger modulus
    · cases hp : ParseInt exp 16 0 with
      | error err => simp [makePublicKey, hmod2 h, hp]
      | ok e => simp [makePublicKey, hmod2 h, hp, h]
    · simp [makePublicKey, hmod h, h]
  · intro h
    simp [makePublicKey, hmod h]
  · intro err h hp
    simp [makePublicKey, hmod2 h, hp]
  · intro e h hp
    have he := ((ParseInt_ok_iff exp e).mp hp).2.1
    simp [makePublicKey, hmod2 h, hp, he]

/-- The call of `TestMakePublicKeyWithInvalidModulus`. -/
theorem makePublicKey_invalid_modulus :
    makePublicKey "invalid" exp = ({}, some (errors_New "invalid modulus")) := by
  decide

/-- The call of `TestMakePublicKeyWithInvalidExp`: the error is the `NumError` whose
message the test expects. -/
theorem makePublicKey_invalid_exp :
    makePublicKey modulus "invalid" =
      ({}, some (.numError "ParseInt" "invalid" .ErrSyntax)) := by
  have h : (makePublicKey modulus exp).1.N = some (clientN : Int) := by
    rw [makePublicKey_constants]
  have hs : SetString modulus 16 = some (clientN : Int) := by
    unfold makePublicKey at h
    cases hm : SetString modulus 16 with
    | none => simp [hm] at h
    | some n =>
      simp only [hm] at h
      cases hp : ParseInt exp 16 0 with
      | error e => simp [hp] at h
      | ok e =>
        simp only [hp] at h
        rw [← h]
  have hp : ParseInt "invalid" 16 0 = .error (.numError "ParseInt" "invalid" .ErrSyntax) := by
    rfl
  simp [makePublicKey, hs, hp]

/-! ## The encrypted PIN can be decrypted -/

theorem pow_mul_modEq_prime (p m k : Nat) (hp : p.Prime) (hk : k ≡ 1 [MOD p - 1]) (hk0 : 0 < k) :
    m ^ k ≡ m [MOD p] := by
  haveI : Fact p.Prime := ⟨hp⟩
  rw [← ZMod.eq_iff_modEq_nat, Nat.cast_pow]
  by_cases hm : (m : ZMod p) = 0
  · rw [hm, zero_pow (by omega)]
  · have h1 : 1 ≤ k := hk0
    obtain ⟨t, ht⟩ : ∃ t, k = 1 + (p - 1) * t := by
      have := (Nat.modEq_iff_dvd' h1).mp hk.symm
      obtain ⟨t, ht⟩ := this
      exact ⟨t, by omega⟩
    rw [ht, pow_add, pow_one, pow_mul, ZMod.pow_card_sub_one_eq_one hm, one_pow, mul_one]

theorem rsa_roundtrip (p q e d m : Nat) (hp : p.Prime) (hq : q.Prime) (hpq : p ≠ q)
    (hdp : e * d ≡ 1 [MOD p - 1]) (hdq : e * d ≡ 1 [MOD q - 1]) (hm : m < p * q) :
    (m ^ e % (p * q)) ^ d % (p * q) = m := by
  have hpos : 0 < e * d := by
    rcases Nat.eq_zero_or_pos (e * d) with h0 | h0
    · rw [h0] at hdp hdq
      have h1 : p - 1 ∣ 1 := (Nat.modEq_iff_dvd' (Nat.zero_le 1)).mp hdp
      have h2 : q - 1 ∣ 1 := (Nat.modEq_iff_dvd' (Nat.zero_le 1)).mp hdq
      have := Nat.dvd_one.mp h1
      have := Nat.dvd_one.mp h2
      omega
    · exact h0
  have hco : Nat.Coprime p q := (Nat.coprime_primes hp hq).mpr hpq
  have h : m ^ (e * d) ≡ m [MOD p * q] :=
    (Nat.modEq_and_modEq_iff_modEq_mul hco).mp
      ⟨pow_mul_modEq_prime p m _ hp hdp hpos, pow_mul_modEq_prime q m _ hq hdq hpos⟩
  rw [← Nat.pow_mod, ← pow_mul]
  have := h
  unfold Nat.ModEq at this
  rw [this, Nat.mod_eq_of_lt hm]

theorem OS2IP_concat (b : List Nat) (x : Nat) : OS2IP (b ++ [x]) = OS2IP b * 256 + x := by
  simp [OS2IP, List.foldl_append]

theorem OS2IP_cons_zero (b : List Nat) : OS2IP (0 :: b) = OS2IP b := by
  simp [OS2IP]

theorem OS2IP_lt (b : List Nat) (hb : ∀ x ∈ b, x < 256) : OS2IP b < 256 ^ b.length := by
  induction b using List.reverseRecOn with
  | nil => simp [OS2IP]
  | append_singleton l x ih =>
    have h1 := ih (fun y hy => hb y (List.mem_append_left _ hy))
    have h2 := hb x (by simp)
    rw [OS2IP_concat, List.length_append, List.length_singleton, pow_succ]
    omega

theorem I2OSP_OS2IP (b : List Nat) (hb : ∀ x ∈ b, x < 256) : I2OSP b.length (OS2IP b) = b := by
  induction b using List.reverseRecOn with
  | nil => rfl
  | append_singleton l x ih =>
    have h1 := ih (fun y hy => hb y (List.mem_append_left _ hy))
    have h2 := hb x (by simp)
    rw [OS2IP_concat, List.length_append, List.length_singleton, I2OSP]
    have e1 : (OS2IP l * 256 + x) / 256 = OS2IP l := by omega
    have e2 : (OS2IP l * 256 + x) % 256 = x := by omega
    rw [e1, e2, h1]

theorem OS2IP_I2OSP (k x : Nat) (hx : x < 256 ^ k) : OS2IP (I2OSP k x) = x := by
  induction k generalizing x with
  | zero =>
    simp at hx
    simp [I2OSP, OS2IP, hx]
  | succ k ih =>
    rw [I2OSP, OS2IP_concat, ih (x / 256) (by rw [pow_succ] at hx; omega)]
    omega

theorem fromHexChar_digitChar : ∀ d, d < 16 → fromHexChar (Nat.digitChar d) = some d := by
  decide

/-- Decoding the `%x` rendering of bytes gives the bytes back. -/
theorem DecodeString_Sprintf_x (b : List Nat) (hb : ∀ x ∈ b, x < 256) :
    DecodeString (Sprintf_x b) = some b := by
  unfold DecodeString Sprintf_x
  show decodeHex (b.flatMap fun x => [Nat.digitChar (x / 16), Nat.digitChar (x % 16)]) = some b
  induction b with
  | nil => rfl
  | cons x l ih =>
    have hx := hb x (by simp)
    have h1 := fromHexChar_digitChar (x / 16) (by omega)
    have h2 := fromHexChar_digitChar (x % 16) (by omega)
    have h3 := ih (fun y hy => hb y (List.mem_cons_of_mem _ hy))
    show decodeHex (Nat.digitChar (x / 16) :: Nat.digitChar (x % 16) ::
      l.flatMap fun x => [Nat.digitChar (x / 16), Nat.digitChar (x % 16)]) = some (x :: l)
    simp only [decodeHex, h1, h2, h3]
    rw [show x / 16 * 16 + x % 16 = x by omega]

theorem nonZeroRandomBytes_length (rand : Nat → Nat) (n : Nat) :
    (nonZeroRandomBytes rand n).length = n := by
  simp [nonZeroRandomBytes]

theorem nonZeroRandomBytes_range (rand : Nat → Nat) (n : Nat) :
    ∀ x ∈ nonZeroRandomBytes rand n, x ≠ 0 ∧ x < 256 := by
  intro x hx
  simp only [nonZeroRandomBytes, List.mem_map, List.mem_range] at hx
  obtain ⟨i, _, rfl⟩ := hx
  omega

theorem utf8Bytes_lt (c : Char) : ∀ x ∈ utf8Bytes c, x < 256 := by
  have hc : c.toNat < 0x110000 := by
    have := c.valid
    simp only [Char.toNat, UInt32.isValidChar, Nat.isValidChar] at this ⊢
    omega
  intro x hx
  unfold utf8Bytes at hx
  simp only at hx
  split_ifs at hx <;> simp at hx <;> omega

theorem bytesOf_lt (s : String) : ∀ x ∈ bytesOf s, x < 256 := by
  intro x hx
  simp only [bytesOf, List.mem_flatMap] at hx
  obtain ⟨c, _, hc⟩ := hx
  exact utf8Bytes_lt c x hc

theorem findZero_padding (ps rest : List Nat) (i : Nat) (hps : ∀ x ∈ ps, x ≠ 0) :
    findZero (ps ++ 0 :: rest) i = some (i + ps.length) := by
  induction ps generalizing i with
  | nil => simp [findZero]
  | cons a l ih =>
    have ha : a ≠ 0 := hps a (by simp)
    simp only [List.cons_append, findZero, ha, if_false, List.length_cons]
    show findZero (l ++ 0 :: rest) (i + 1) = _
    rw [ih (i + 1) (fun y hy => hps y (List.mem_cons_of_mem _ hy))]
    congr 1
    omega

/-- The modulus has `Size` bytes: it lies between the powers of 256. -/
theorem Size_bounds (n : Nat) (e : Int) (hn : 0 < n) :
    256 ^ (PublicKey.Size { N := some (n : Int), E := e } - 1) ≤ n ∧
      n < 256 ^ PublicKey.Size { N := some (n : Int), E := e } := by
  rw [Size_natCast]
  have h256 : ∀ k, 256 ^ k = 2 ^ (8 * k) := by
    intro k
    rw [pow_mul]
    norm_num
  have hsz : 0 < Nat.size n := Nat.size_pos.mpr hn
  constructor
  · rw [h256]
    have h1 : Nat.size n - 1 < Nat.size n := by omega
    have h2 := Nat.lt_size.mp h1
    refine le_trans (Nat.pow_le_pow_right (by norm_num) ?_) h2
    omega
  · rw [h256]
    refine lt_of_lt_of_le (Nat.lt_size_self n) (Nat.pow_le_pow_right (by norm_num) ?_)
    omega

/-- Decryption of a ciphertext whose RSA image is a well-formed encoded message
`0x00 || 0x02 || PS || 0x00 || msg` returns `msg`. -/
theorem DecryptPKCS1v15_encoded (n E D : Nat) (ct ps msg : List Nat)
    (hE2 : 2 ≤ E) (hE : E ≤ 2 ^ 31 - 1) (hn : 0 < n)
    (hk : 11 ≤ PublicKey.Size { N := some (n : Int), E := (E : Int) })
    (hc : OS2IP ct ≤ n) (hps : ∀ x ∈ ps, x ≠ 0) (hlen : 8 ≤ ps.length)
    (hem : I2OSP (PublicKey.Size { N := some (n : Int), E := (E : Int) }) (OS2IP ct ^ D % n)
      = 0 :: 2 :: (ps ++ 0 :: msg)) :
    DecryptPKCS1v15 { PublicKey := { N := some (n : Int), E := (E : Int) }, D := D } ct
      = .ok msg := by
  have h1 : ¬ ((E : Int) < 2) := by omega
  have h2 : ¬ (2147483647 < (E : Int)) := by omega
  have h3 : ¬ (PublicKey.Size { N := some (n : Int), E := (E : Int) } < 11) := by omega
  have h4 : ¬ (OS2IP ct > n ∨ n = 0) := by omega
  have h5 : 10 ≤ 2 + ps.length := by omega
  simp only [DecryptPKCS1v15, checkPub, h1, h2, if_false, Option.getD_some, Int.natAbs_ofNat, h3,
    h4, hem, List.drop_succ_cons, List.drop_zero, findZero_padding ps msg 2 hps, List.head?_cons,
    true_and, h5, if_true]
  have h6 : ¬ (2147483647 < E) := by omega
  have hd : List.drop (2 + ps.length) (2 :: (ps ++ 0 :: msg)) = msg := by
    rw [show 2 + ps.length = (ps.length + 1) + 1 by omega, List.drop_succ_cons,
      show ps ++ 0 :: msg = (ps ++ [0]) ++ msg by simp, List.drop_left' (by simp)]
  norm_num
  simp only [h6, if_false, hd]

theorem bytesOf_append (a b : String) : bytesOf (a ++ b) = bytesOf a ++ bytesOf b := by
  simp [bytesOf, String.data_append]

/-- What `EncryptPKCS1v15` returns under a key `p * q` can be decrypted with a private
exponent that matches the public one. -/
theorem Encrypt_Decrypt (rand : Nat → Nat) (p q E D : Nat) (msg : List Nat)
    (hp : p.Prime) (hq : q.Prime) (hpq : p ≠ q) (hE2 : 2 ≤ E) (hE : E ≤ 2 ^ 31 - 1)
    (hDp : E * D ≡ 1 [MOD p - 1]) (hDq : E * D ≡ 1 [MOD q - 1])
    (hmsg : ∀ x ∈ msg, x < 256)
    (hlen : msg.length + 11 ≤ PublicKey.Size { N := some ((p * q : Nat) : Int), E := (E : Int) }) :
    ∃ ct, EncryptPKCS1v15 rand { N := some ((p * q : Nat) : Int), E := (E : Int) } msg = .ok ct ∧
      DecodeString (Sprintf_x ct) = some ct ∧
      DecryptPKCS1v15
        { PublicKey := { N := some ((p * q : Nat) : Int), E := (E : Int) }, D := D } ct
        = .ok msg := by
  have hn : 0 < p * q := Nat.mul_pos hp.pos hq.pos
  obtain ⟨hlow, hhigh⟩ := Size_bounds (p * q) (E : Int) hn
  generalize hk : PublicKey.Size { N := some ((p * q : Nat) : Int), E := (E : Int) } = k
    at hlen hlow hhigh
  have hps := nonZeroRandomBytes_range rand (k - msg.length - 3)
  have hpslen := nonZeroRandomBytes_length rand (k - msg.length - 3)
  have henc := EncryptPKCS1v15_ok rand { N := some ((p * q : Nat) : Int), E := (E : Int) } msg
    ((p * q : Nat) : Int) rfl (by simp; omega) (by simp; omega) (by rw [hk]; exact hlen)
  simp only [hk, Int.toNat_ofNat, Int.natAbs_ofNat] at henc
  generalize nonZeroRandomBytes rand (k - msg.length - 3) = ps at hps hpslen henc
  refine ⟨_, henc, DecodeString_Sprintf_x _ (I2OSP_lt _ _), ?_⟩
  -- the encoded message and its number
  have hem_bytes : ∀ x ∈ 2 :: (ps ++ 0 :: msg), x < 256 := by
    intro x hx
    simp only [List.mem_cons, List.mem_append] at hx
    rcases hx with rfl | hx | rfl | hx
    · norm_num
    · exact (hps x hx).2
    · norm_num
    · exact hmsg x hx
  have hem_len : (2 :: (ps ++ 0 :: msg)).length = k - 1 := by
    simp only [List.length_cons, List.length_append, hpslen]
    omega
  have hm_lt : OS2IP (0 :: 2 :: (ps ++ 0 :: msg)) < p * q := by
    rw [OS2IP_cons_zero]
    have := OS2IP_lt _ hem_bytes
    rw [hem_len] at this
    exact lt_of_lt_of_le this hlow
  have hc_lt : OS2IP (0 :: 2 :: (ps ++ 0 :: msg)) ^ E % (p * q) < p * q := Nat.mod_lt _ hn
  have hct : OS2IP (I2OSP k (OS2IP (0 :: 2 :: (ps ++ 0 :: msg)) ^ E % (p * q)))
      = OS2IP (0 :: 2 :: (ps ++ 0 :: msg)) ^ E % (p * q) :=
    OS2IP_I2OSP _ _ (lt_trans hc_lt hhigh)
  have hfull_bytes : ∀ x ∈ 0 :: 2 :: (ps ++ 0 :: msg), x < 256 := by
    intro x hx
    rcases List.mem_cons.mp hx with rfl | hx
    · norm_num
    · exact hem_bytes x hx
  have hfull_len : (0 :: 2 :: (ps ++ 0 :: msg)).length = k := by
    rw [List.length_cons, hem_len]
    omega
  have hcons : [0, 2] ++ ps ++ [0] ++ msg = 0 :: 2 :: (ps ++ 0 :: msg) := by simp
  rw [hcons]
  apply DecryptPKCS1v15_encoded (p * q) E D _ ps msg hE2 hE hn (by rw [hk]; omega)
  · rw [hct]
    exact le_of_lt hc_lt
  · exact fun x hx => (hps x hx).1
  · omega
  · rw [hk, hct, rsa_roundtrip p q E D _ hp hq hpq hDp hDq hm_lt]
    have := I2OSP_OS2IP _ hfull_bytes
    rw [hfull_len] at this
    exact this

theorem Char_toNat_inj (c d : Char) (h : c.toNat = d.toNat) : c = d := by
  apply Char.ext
  cases hc : c.val with | mk a =>
  cases hd : d.val with | mk b =>
  simp only [Char.toNat, UInt32.toNat, hc, hd] at h
  congr
  exact BitVec.eq_of_toNat_eq h

/-- The UTF-8 encoding is prefix-free: the bytes determine the character. -/
theorem utf8Bytes_append_inj (c d : Char) (r t : List Nat)
    (h : utf8Bytes c ++ r = utf8Bytes d ++ t) : c = d ∧ r = t := by
  have hc : c.toNat < 0x110000 := by
    have := c.valid
    simp only [Char.toNat, UInt32.isValidChar, Nat.isValidChar] at this ⊢
    omega
  have hd : d.toNat < 0x110000 := by
    have := d.valid
    simp only [Char.toNat, UInt32.isValidChar, Nat.isValidChar] at this ⊢
    omega
  unfold utf8Bytes at h
  simp only at h
  split_ifs at h <;>
    simp only [List.cons_append, List.nil_append, List.cons.injEq] at h <;>
    first
    | (exfalso; omega)
    | exact ⟨Char_toNat_inj _ _ (by omega), h.2⟩
    | exact ⟨Char_toNat_inj _ _ (by omega), h.2.2⟩
    | exact ⟨Char_toNat_inj _ _ (by omega), h.2.2.2⟩
    | exact ⟨Char_toNat_inj _ _ (by omega), h.2.2.2.2⟩

theorem flatMap_utf8Bytes_inj (a b : List Char)
    (h : a.flatMap utf8Bytes = b.flatMap utf8Bytes) : a = b := by
  induction a generalizing b with
  | nil =>
    cases b with
    | nil => rfl
    | cons d t =>
      exfalso
      simp only [List.flatMap_nil, List.flatMap_cons] at h
      have := congrArg List.length h
      unfold utf8Bytes at this
      simp only at this
      split_ifs at this <;> simp at this
  | cons c r ih =>
    cases b with
    | nil =>
      exfalso
      simp only [List.flatMap_nil, List.flatMap_cons] at h
      have := congrArg List.length h
      unfold utf8Bytes at this
      simp only at this
      split_ifs at this <;> simp at this
    | cons d t =>
      simp only [List.flatMap_cons] at h
      obtain ⟨h1, h2⟩ := utf8Bytes_append_inj c d _ _ h
      rw [h1, ih t h2]

/-- A Go string is determined by its bytes. -/
theorem bytesOf_inj (a b : String) (h : bytesOf a = bytesOf b) : a = b := by
  have := flatMap_utf8Bytes_inj a.data b.data h
  exact String.ext this

/-! ## A concrete key pair -/

theorem powModAux_eq (fuel a e m : Nat) (h : e ≤ fuel) : powModAux fuel a e m = a ^ e % m := by
  induction fuel generalizing e with
  | zero =>
    have : e = 0 := by omega
    subst this
    simp [powModAux]
  | succ n ih =>
    unfold powModAux
    by_cases he : e = 0
    · simp [he]
    · simp only [he, if_false]
      rw [ih _ (by omega)]
      by_cases hpar : e % 2 = 0
      · simp only [hpar, if_true]
        have : e = e / 2 + e / 2 := by omega
        conv_rhs => rw [this, pow_add]
        generalize a ^ (e / 2) = x
        simp [Nat.mul_mod, Nat.mod_mod]
      · simp only [hpar, if_false]
        have : e = e / 2 + e / 2 + 1 := by omega
        conv_rhs => rw [this, pow_succ, pow_add]
        generalize a ^ (e / 2) = x
        simp [Nat.mul_mod, Nat.mod_mod]

theorem powMod_eq (a e m : Nat) : powMod a e m = a ^ e % m := powModAux_eq e a e m le_rfl

theorem pow_eq_one_iff_powMod (p a k : Nat) (hp : 1 < p) :
    ((a : ℕ) : ZMod p) ^ k = 1 ↔ powMod a k p = 1 := by
  rw [powMod_eq, ← Nat.cast_pow, ← Nat.cast_one, ZMod.natCast_eq_natCast_iff',
    Nat.mod_eq_of_lt hp]

/-- The Lucas test, with the powers computed by `powMod`. -/
theorem prime_of_powMod (p a : Nat) (hp : 1 < p) (h1 : powMod a (p - 1) p = 1)
    (hd : ∀ q : ℕ, q.Prime → q ∣ p - 1 → powMod a ((p - 1) / q) p ≠ 1) : p.Prime := by
  apply lucas_primality p ((a : ℕ) : ZMod p)
  · exact (pow_eq_one_iff_powMod p a _ hp).mpr h1
  · intro q hq hdvd h
    exact hd q hq hdvd ((pow_eq_one_iff_powMod p a _ hp).mp h)

set_option maxRecDepth 100000 in
theorem keyP_prime : Nat.Prime keyP := by
  have hfac : keyP - 1 = 2 ^ 276 * 3 := by unfold keyP; norm_num
  apply prime_of_powMod keyP 19 (by unfold keyP; norm_num) (by decide)
  intro q hq hdvd
  rw [hfac] at hdvd
  rcases (Nat.Prime.dvd_mul hq).mp hdvd with h | h
  · rw [(Nat.prime_dvd_prime_iff_eq hq Nat.prime_two).mp (hq.dvd_of_dvd_pow h)]
    decide
  · rw [(Nat.prime_dvd_prime_iff_eq hq Nat.prime_three).mp h]
    decide

set_option maxRecDepth 100000 in
theorem keyQ_prime : Nat.Prime keyQ := by
  have hfac : keyQ - 1 = 2 ^ 229 * 3 * 5 := by unfold keyQ; norm_num
  apply prime_of_powMod keyQ 7 (by unfold keyQ; norm_num) (by decide)
  intro q hq hdvd
  rw [hfac] at hdvd
  rcases (Nat.Prime.dvd_mul hq).mp hdvd with h | h
  · rcases (Nat.Prime.dvd_mul hq).mp h with h | h
    · rw [(Nat.prime_dvd_prime_iff_eq hq Nat.prime_two).mp (hq.dvd_of_dvd_pow h)]
      decide
    · rw [(Nat.prime_dvd_prime_iff_eq hq Nat.prime_three).mp h]
      decide
  · rw [(Nat.prime_dvd_prime_iff_eq hq Nat.prime_five).mp h]
    decide

theorem size_key : Nat.size (keyP * keyQ) = 511 := by
  apply le_antisymm
  · rw [Nat.size_le]; unfold keyP keyQ; norm_num
  · exact Nat.lt_size.mpr (by unfold keyP keyQ; norm_num)

/-- C6: for a PIN that fits and an RSA key `N = p * q` of two distinct primes with a
public exponent `E` that `crypto/rsa` accepts and a private exponent `D` matching it,
the `hdnrequest` field of the form `GetCard` posts decodes from hexadecimal to a
ciphertext that `DecryptPKCS1v15` under the private key turns into exactly the bytes
of `<pin>|<randomNo>`, `randomNo` being the constant of 40 characters; no other PIN gives
these bytes, so the PIN is recovered from them. -/
theorem hdnrequest_decrypts_to_pin (c : Client) (cardNo pin : String) (rand : Nat → Nat)
    (net : Network) (b : Form) (p q E D : Nat)
    (hkey : c.publicKey = { N := some ((p * q : Nat) : Int), E := (E : Int) })
    (hp : p.Prime) (hq : q.Prime) (hpq : p ≠ q) (hE2 : 2 ≤ E) (hE : E ≤ 2 ^ 31 - 1)
    (hDp : E * D ≡ 1 [MOD p - 1]) (hDq : E * D ≡ 1 [MOD q - 1])
    (hlen : (bytesOf (pin ++ "|" ++ randomNo)).length + 11 ≤ c.publicKey.Size) :
    ∃ res form hdnrequest decoded,
      GetCard c cardNo pin rand net b = some res ∧
      res.posted = some (c.BaseURL, form) ∧
      form "hdnrequest" = some hdnrequest ∧
      DecodeString hdnrequest = some decoded ∧
      DecryptPKCS1v15 { PublicKey := c.publicKey, D := D } decoded
        = .ok (bytesOf (pin ++ "|" ++ randomNo)) ∧
      randomNo.length = 40 ∧
      ∀ other : String,
        bytesOf (other ++ "|" ++ randomNo) = bytesOf (pin ++ "|" ++ randomNo) → other = pin := by
  rw [hkey] at hlen
  obtain ⟨ct, henc, hdec, hdecrypt⟩ := Encrypt_Decrypt rand p q E D
    (bytesOf (pin ++ "|" ++ randomNo)) hp hq hpq hE2 hE hDp hDq (bytesOf_lt _) hlen
  have henc2 : encryptPinWithPublicKey rand pin c.publicKey = .ok ct := by
    rw [hkey]
    exact henc
  refine ⟨_, requestForm b cardNo ct, Sprintf_x ct, ct,
    GetCard_ok c cardNo pin rand net b ct henc2, rfl, requestForm_hdnrequest b cardNo ct, hdec,
    by rw [hkey]; exact hdecrypt, by decide, ?_⟩
  intro other h
  simp only [String.append_assoc, bytesOf_append] at h
  exact bytesOf_inj _ _ (List.append_cancel_right h)

/-- The sample call with the key `keyP * keyQ` of 511 bits, public exponent 65537 and
private exponent `keyD`: the posted `hdnrequest` decrypts to the bytes of
`0000|7464663221746466322174646632217464663221`. -/
theorem hdnrequest_decrypts_to_pin_witness :
    ∃ res form hdnrequest decoded,
      GetCard { BaseURL := baseURL,
                publicKey := { N := some ((keyP * keyQ : Nat) : Int), E := ((65537 : Nat) : Int) } }
        sampleCardNo samplePin zeroRand (serving successPage) body = some res ∧
      res.posted = some (baseURL, form) ∧
      form "hdnrequest" = some hdnrequest ∧
      DecodeString hdnrequest = some decoded ∧
      DecryptPKCS1v15
        { PublicKey := { N := some ((keyP * keyQ : Nat) : Int), E := ((65537 : Nat) : Int) },
          D := keyD } decoded
        = .ok (bytesOf "0000|7464663221746466322174646632217464663221") := by
  obtain ⟨res, form, hdnrequest, decoded, h1, h2, h3, h4, h5, _⟩ :=
    hdnrequest_decrypts_to_pin
      { BaseURL := baseURL,
        publicKey := { N := some ((keyP * keyQ : Nat) : Int), E := ((65537 : Nat) : Int) } }
      sampleCardNo samplePin zeroRand (serving successPage) body keyP keyQ 65537 keyD rfl
      keyP_prime keyQ_prime (by decide) (by norm_num) (by norm_num) (by decide) (by decide)
      (by
        show (bytesOf (samplePin ++ "|" ++ randomNo)).length + 11 ≤
          PublicKey.Size { N := some ((keyP * keyQ : Nat) : Int), E := ((65537 : Nat) : Int) }
        rw [Size_natCast, size_key]
        decide)
  exact ⟨res, form, hdnrequest, decoded, h1, h2, h3, h4, h5⟩

end ThePerfectGiftCard
